import Mathlib

/-!
Verification of `django_cloud_tasks/base.py` against its specification.

The Python module is shallowly embedded: JSON values (as Python's `json`
module sees them, extended with `uuid.UUID` objects which `ComplexEncoder`
renders as flat hex), the serializer `json.dumps(-, cls=ComplexEncoder)`,
UTF-8 and base64 byte encodings, the worker-side decode path (base64 decode,
UTF-8 decode, JSON parse), and the dispatch logic of `retry`,
`CloudTaskWrapper`, `batch_execute` and `batch_callback_logger` as pure
functions producing an explicit event trace (operation invocations, sleeps,
queue-service calls) next to their result.
-/

namespace DjangoCloudTasks

/-! ### JSON data model

Values representable in a task payload: the JSON-native constructors plus
`uuid` for `uuid.UUID` objects (128-bit identifiers).  Numbers are modelled
as integers. -/

mutual
inductive JValue : Type
  | null : JValue
  | bool : Bool → JValue
  | num : Int → JValue
  | str : String → JValue
  | uuid : Fin (2 ^ 128) → JValue
  | arr : JArr → JValue
  | obj : JObj → JValue
deriving DecidableEq
inductive JArr : Type
  | nil : JArr
  | cons : JValue → JArr → JArr
deriving DecidableEq
inductive JObj : Type
  | nil : JObj
  | cons : String → JValue → JObj → JObj
deriving DecidableEq
end

/-- The double-quote character, written by code point to keep literals plain. -/
def qtCh : Char := Char.ofNat 34

/-- The backslash character. -/
def bsCh : Char := Char.ofNat 92

/-- The opening curly bracket. -/
def lbCh : Char := Char.ofNat 123

/-- The closing curly bracket. -/
def rbCh : Char := Char.ofNat 125

/-- Decimal digit character for `n < 10`. -/
def digitCh (n : Nat) : Char := Char.ofNat (48 + n)

/-- Lowercase hexadecimal digit character for `n < 16` (as `'%x' % n`). -/
def hexDigitChar (n : Nat) : Char :=
  if n < 10 then Char.ofNat (48 + n) else Char.ofNat (87 + n)

/-- The four hex digits of `n < 0x10000`, most significant first
(as `'%04x' % n`). -/
def hex4 (n : Nat) : List Char :=
  [hexDigitChar (n / 4096 % 16), hexDigitChar (n / 256 % 16),
   hexDigitChar (n / 16 % 16), hexDigitChar (n % 16)]

/-- `uuid.UUID.hex`: the 32 lowercase hex digits of the 128-bit value,
most significant first (as `'%032x' % n`). -/
def hex32 (n : Nat) : List Char :=
  (List.range 32).map (fun i => hexDigitChar (n / 16 ^ (31 - i) % 16))

/-- Big-endian decimal digits of `n`, accumulated onto `acc`; `fuel > n`
makes the recursion total.  Yields `acc` unchanged for `n = 0`. -/
def natCharsCore : Nat → Nat → List Char → List Char
  | 0, _, acc => acc
  | fuel + 1, n, acc =>
      if n = 0 then acc else natCharsCore fuel (n / 10) (digitCh (n % 10) :: acc)

/-- The decimal digits of `n`, most significant first, empty for `n = 0`. -/
def digitsList (n : Nat) : List Char := natCharsCore (n + 1) n []

/-- Python `repr` of a natural number. -/
def natChars (n : Nat) : List Char := if n = 0 then ['0'] else digitsList n

/-- Python `repr` of an integer (used by `json.dumps` for `int`). -/
def intChars : Int → List Char
  | .ofNat n => natChars n
  | .negSucc m => '-' :: natChars (m + 1)

/-- `json.dumps` escaping of one character with `ensure_ascii=True`:
printable ASCII other than quote and backslash is literal, the short
escapes cover backspace, tab, newline, form feed and carriage return,
everything else becomes one `\uXXXX` escape (a surrogate pair above
`0xFFFF`). -/
def escChar (c : Char) : List Char :=
  let n := c.toNat
  if n = 34 then [bsCh, qtCh]
  else if n = 92 then [bsCh, bsCh]
  else if 32 ≤ n ∧ n ≤ 126 then [c]
  else if n = 8 then [bsCh, 'b']
  else if n = 9 then [bsCh, 't']
  else if n = 10 then [bsCh, 'n']
  else if n = 12 then [bsCh, 'f']
  else if n = 13 then [bsCh, 'r']
  else if n < 65536 then bsCh :: 'u' :: hex4 n
  else
    (bsCh :: 'u' :: hex4 (55296 + (n - 65536) / 1024)) ++
      (bsCh :: 'u' :: hex4 (56320 + (n - 65536) % 1024))

/-- Escape every character of a list. -/
def escList : List Char → List Char
  | [] => []
  | c :: cs => escChar c ++ escList cs

/-- A JSON string literal: quote, escaped body, quote. -/
def escString (s : String) : List Char := qtCh :: (escList s.data ++ [qtCh])

/-! ### Serializer

`json.dumps(-, cls=ComplexEncoder)` with the default separators `', '` and
`': '`; `ComplexEncoder.default` turns a `uuid.UUID` into its `.hex`
string, which is then serialized as an ordinary string. -/

mutual
def serVal : JValue → List Char
  | .null => "null".data
  | .bool b => if b then "true".data else "false".data
  | .num i => intChars i
  | .str s => escString s
  | .uuid u => escString (String.mk (hex32 u.val))
  | .arr a => serArr a
  | .obj o => serObj o
def serArr : JArr → List Char
  | .nil => ['[', ']']
  | .cons v t => '[' :: (serVal v ++ serArrTail t ++ [']'])
def serArrTail : JArr → List Char
  | .nil => []
  | .cons v t => ',' :: ' ' :: (serVal v ++ serArrTail t)
def serObj : JObj → List Char
  | .nil => [lbCh, rbCh]
  | .cons k v t => lbCh :: (escString k ++ ':' :: ' ' :: (serVal v ++ serObjTail t) ++ [rbCh])
def serObjTail : JObj → List Char
  | .nil => []
  | .cons k v t => ',' :: ' ' :: (escString k ++ ':' :: ' ' :: (serVal v ++ serObjTail t))
end

/-! The image of a payload after the identifier-rendering rule: every
`uuid` value replaced by its flat lowercase hex string.  This is what the
worker-side decode is expected to recover. -/

mutual
def stripVal : JValue → JValue
  | .null => .null
  | .bool b => .bool b
  | .num i => .num i
  | .str s => .str s
  | .uuid u => .str (String.mk (hex32 u.val))
  | .arr a => .arr (stripArr a)
  | .obj o => .obj (stripObj o)
def stripArr : JArr → JArr
  | .nil => .nil
  | .cons v t => .cons (stripVal v) (stripArr t)
def stripObj : JObj → JObj
  | .nil => .nil
  | .cons k v t => .cons k (stripVal v) (stripObj t)
end

/-! ### UTF-8 (`str.encode()` / `bytes.decode('utf-8')`)

Bytes are naturals below 256. -/

/-- The UTF-8 bytes of one character. -/
def utf8Char (c : Char) : List Nat :=
  let n := c.toNat
  if n < 128 then [n]
  else if n < 2048 then [192 + n / 64, 128 + n % 64]
  else if n < 65536 then [224 + n / 4096, 128 + n / 64 % 64, 128 + n % 64]
  else [240 + n / 262144, 128 + n / 4096 % 64, 128 + n / 64 % 64, 128 + n % 64]

/-- UTF-8 encoding of a character list. -/
def utf8Encode : List Char → List Nat
  | [] => []
  | c :: cs => utf8Char c ++ utf8Encode cs

/-- Decode the continuation byte of a two-byte sequence, rejecting
overlong forms. -/
def utf8Tail2 (b0 : Nat) : List Nat → Option (Nat × List Nat)
  | b1 :: bs =>
    if 128 ≤ b1 ∧ b1 < 192 then
      let n := (b0 - 192) * 64 + (b1 - 128)
      if 128 ≤ n then some (n, bs) else none
    else none
  | _ => none

/-- Decode the continuation bytes of a three-byte sequence, rejecting
overlong forms and surrogate code points. -/
def utf8Tail3 (b0 : Nat) : List Nat → Option (Nat × List Nat)
  | b1 :: b2 :: bs =>
    if (128 ≤ b1 ∧ b1 < 192) ∧ (128 ≤ b2 ∧ b2 < 192) then
      let n := (b0 - 224) * 4096 + (b1 - 128) * 64 + (b2 - 128)
      if 2048 ≤ n ∧ ¬(55296 ≤ n ∧ n < 57344) then some (n, bs) else none
    else none
  | _ => none

/-- Decode the continuation bytes of a four-byte sequence, rejecting
overlong forms and values above `0x10FFFF`. -/
def utf8Tail4 (b0 : Nat) : List Nat → Option (Nat × List Nat)
  | b1 :: b2 :: b3 :: bs =>
    if (128 ≤ b1 ∧ b1 < 192) ∧ (128 ≤ b2 ∧ b2 < 192) ∧ (128 ≤ b3 ∧ b3 < 192) then
      let n := (b0 - 240) * 262144 + (b1 - 128) * 4096 + (b2 - 128) * 64 + (b3 - 128)
      if 65536 ≤ n ∧ n < 1114112 then some (n, bs) else none
    else none
  | _ => none

/-- Decode one UTF-8 sequence: the code point and the remaining bytes. -/
def utf8DecodeCh : List Nat → Option (Nat × List Nat)
  | [] => none
  | b0 :: bs =>
    if b0 < 128 then some (b0, bs)
    else if b0 < 192 then none
    else if b0 < 224 then utf8Tail2 b0 bs
    else if b0 < 240 then utf8Tail3 b0 bs
    else if b0 < 248 then utf8Tail4 b0 bs
    else none

/-- Decode a whole byte list, one sequence at a time (fuel-indexed; one
unit per decoded character). -/
def utf8DecodeGo : Nat → List Nat → Option (List Char)
  | 0, _ => none
  | fuel + 1, bs =>
    if bs = [] then some []
    else
      match utf8DecodeCh bs with
      | none => none
      | some (n, rest) => (utf8DecodeGo fuel rest).map (fun cs => Char.ofNat n :: cs)

/-- Modelled from the spec: the worker-side UTF-8 decoder (the repository
contains no decode path; `bytes.decode('utf-8')` is standard).  Rejects
truncated sequences, stray continuation bytes, overlong forms, surrogate
code points and values above `0x10FFFF`. -/
def utf8Decode (bs : List Nat) : Option (List Char) :=
  utf8DecodeGo (bs.length + 1) bs

/-! ### Base64 (`base64.b64encode` and the worker-side decode) -/

/-- Character of the standard base64 alphabet for a sextet `n < 64`. -/
def b64Char (n : Nat) : Char :=
  if n < 26 then Char.ofNat (65 + n)
  else if n < 52 then Char.ofNat (97 + (n - 26))
  else if n < 62 then Char.ofNat (48 + (n - 52))
  else if n = 62 then '+'
  else '/'

/-- Sextet named by a base64 alphabet character, `none` off the alphabet. -/
def b64Index (c : Char) : Option Nat :=
  let n := c.toNat
  if 65 ≤ n ∧ n ≤ 90 then some (n - 65)
  else if 97 ≤ n ∧ n ≤ 122 then some (n - 97 + 26)
  else if 48 ≤ n ∧ n ≤ 57 then some (n - 48 + 52)
  else if n = 43 then some 62
  else if n = 47 then some 63
  else none

/-- `base64.b64encode`: three bytes to four characters, with `'='` padding
on a short final group. -/
def b64Encode : List Nat → List Char
  | [] => []
  | [a] => [b64Char (a / 4), b64Char (a % 4 * 16), '=', '=']
  | [a, b] => [b64Char (a / 4), b64Char (a % 4 * 16 + b / 16), b64Char (b % 16 * 4), '=']
  | a :: b :: c :: rest =>
      b64Char (a / 4) :: b64Char (a % 4 * 16 + b / 16) ::
        b64Char (b % 16 * 4 + c / 64) :: b64Char (c % 64) :: b64Encode rest

/-- Modelled from the spec: the worker-side base64 decoder (the repository
contains no decode path; standard base64 with `'='` padding on the final
four-character group). -/
def b64Decode : List Char → Option (List Nat)
  | [] => some []
  | c0 :: c1 :: c2 :: c3 :: rest =>
    if c2 = '=' ∧ c3 = '=' ∧ rest = [] then
      match b64Index c0, b64Index c1 with
      | some a, some b => if b % 16 = 0 then some [a * 4 + b / 16] else none
      | _, _ => none
    else if c3 = '=' ∧ rest = [] then
      match b64Index c0, b64Index c1, b64Index c2 with
      | some a, some b, some c =>
          if c % 4 = 0 then some [a * 4 + b / 16, b % 16 * 16 + c / 4] else none
      | _, _, _ => none
    else
      match b64Index c0, b64Index c1, b64Index c2, b64Index c3, b64Decode rest with
      | some a, some b, some c, some d, some tl =>
          some ((a * 4 + b / 16) :: (b % 16 * 16 + c / 4) :: (c % 4 * 64 + d) :: tl)
      | _, _, _, _, _ => none
  | _ => none

/-! ### JSON parser

Modelled from the spec: the worker side parses the decoded payload as JSON
(`json.loads`); the repository contains no decode path.  Strings restore
the `\uXXXX` escapes (combining surrogate pairs), numbers are parsed as
integers, whitespace is skipped between tokens. -/

/-- JSON whitespace. -/
def isWsCh (c : Char) : Bool :=
  c.toNat = 32 || c.toNat = 9 || c.toNat = 10 || c.toNat = 13

/-- Drop leading JSON whitespace. -/
def skipWs : List Char → List Char
  | [] => []
  | c :: cs => if isWsCh c then skipWs cs else c :: cs

/-- Numeric value of a hex digit character (either case), `none` otherwise. -/
def hexVal (c : Char) : Option Nat :=
  let n := c.toNat
  if 48 ≤ n ∧ n ≤ 57 then some (n - 48)
  else if 97 ≤ n ∧ n ≤ 102 then some (n - 87)
  else if 65 ≤ n ∧ n ≤ 70 then some (n - 55)
  else none

/-- Decimal digit character predicate. -/
def isDigitCh (c : Char) : Bool := 48 ≤ c.toNat && c.toNat ≤ 57

/-- Consume a run of decimal digits, folding them onto the accumulator. -/
def parseDigitsAux : List Char → Nat → Nat × List Char
  | [], acc => (acc, [])
  | c :: cs, acc =>
      if isDigitCh c then parseDigitsAux cs (acc * 10 + (c.toNat - 48))
      else (acc, c :: cs)

/-- Parse an integer JSON number: optional minus sign, one or more digits. -/
def parseNumber : List Char → Option (Int × List Char)
  | [] => none
  | c :: cs =>
      if c = '-' then
        match cs with
        | d :: _ =>
            if isDigitCh d then
              let p := parseDigitsAux cs 0
              some (-(p.1 : Int), p.2)
            else none
        | [] => none
      else if isDigitCh c then
        let p := parseDigitsAux (c :: cs) 0
        some ((p.1 : Int), p.2)
      else none

/-- Read four hex digits. -/
def parseHex4 : List Char → Option (Nat × List Char)
  | h0 :: h1 :: h2 :: h3 :: rest =>
    match hexVal h0, hexVal h1, hexVal h2, hexVal h3 with
    | some a, some b, some c, some d => some (a * 4096 + b * 256 + c * 16 + d, rest)
    | _, _, _, _ => none
  | _ => none

/-- Read the `\uXXXX` escape of a low surrogate half. -/
def parseLowSurrogate : List Char → Option (Nat × List Char)
  | e2 :: u2 :: rest =>
    if e2.toNat = 92 ∧ u2 = 'u' then
      match parseHex4 rest with
      | some (m, rest4) => if 56320 ≤ m ∧ m < 57344 then some (m, rest4) else none
      | none => none
    else none
  | _ => none

/-- Resolve a `\uXXXX` escape after the `u`: a plain code point stands for
itself, a high surrogate half must be followed by a low half and the pair
is combined, an unpaired low half is rejected. -/
def parseU (input : List Char) : Option (Char × List Char) :=
  match parseHex4 input with
  | none => none
  | some (n, rest3) =>
    if 55296 ≤ n ∧ n < 56320 then
      match parseLowSurrogate rest3 with
      | some (m, rest4) =>
          some (Char.ofNat (65536 + (n - 55296) * 1024 + (m - 56320)), rest4)
      | none => none
    else if 56320 ≤ n ∧ n < 57344 then none
    else some (Char.ofNat n, rest3)

/-- Resolve one escape sequence after a backslash: the character it names
and the remaining input. -/
def parseEscape : List Char → Option (Char × List Char)
  | [] => none
  | e :: rest =>
    if e = 'u' then parseU rest
    else if e.toNat = 34 then some (qtCh, rest)
    else if e.toNat = 92 then some (bsCh, rest)
    else if e = '/' then some ('/', rest)
    else if e = 'b' then some (Char.ofNat 8, rest)
    else if e = 't' then some (Char.ofNat 9, rest)
    else if e = 'n' then some (Char.ofNat 10, rest)
    else if e = 'f' then some (Char.ofNat 12, rest)
    else if e = 'r' then some (Char.ofNat 13, rest)
    else none

/-- Parse a string body after its opening quote, undoing the escapes; stops
at the closing quote and returns the remaining input.  Fuel-indexed (one
unit per produced character); callers pass the input length plus one. -/
def parseStrBody : Nat → List Char → Option (List Char × List Char)
  | 0, _ => none
  | _ + 1, [] => none
  | fuel + 1, c :: rest =>
    if c.toNat = 34 then some ([], rest)
    else if c.toNat = 92 then
      match parseEscape rest with
      | none => none
      | some (ch, rest2) => (parseStrBody fuel rest2).map (fun p => (ch :: p.1, p.2))
    else if 32 ≤ c.toNat then (parseStrBody fuel rest).map (fun p => (c :: p.1, p.2))
    else none

mutual
/-- Parse one JSON value (fuel-indexed recursive descent). -/
def parseValue : Nat → List Char → Option (JValue × List Char)
  | 0, _ => none
  | fuel + 1, input =>
    match skipWs input with
    | [] => none
    | c :: rest =>
      if c.toNat = 34 then
        (parseStrBody (rest.length + 1) rest).map (fun p => (.str (String.mk p.1), p.2))
      else if c = 'n' then
        match rest with
        | 'u' :: 'l' :: 'l' :: r => some (.null, r)
        | _ => none
      else if c = 't' then
        match rest with
        | 'r' :: 'u' :: 'e' :: r => some (.bool true, r)
        | _ => none
      else if c = 'f' then
        match rest with
        | 'a' :: 'l' :: 's' :: 'e' :: r => some (.bool false, r)
        | _ => none
      else if c = '[' then
        match skipWs rest with
        | [] => none
        | d :: r2 =>
          if d = ']' then some (.arr .nil, r2)
          else
            match parseValue fuel (d :: r2) with
            | none => none
            | some (v, r3) =>
              match parseArrTail fuel r3 with
              | none => none
              | some (t, r4) => some (.arr (.cons v t), r4)
      else if c = lbCh then
        match skipWs rest with
        | d :: r =>
          if d.toNat = 125 then some (.obj .nil, r)
          else if d.toNat = 34 then
            match parseStrBody (r.length + 1) r with
            | none => none
            | some (k, r2) =>
              match skipWs r2 with
              | d2 :: r3 =>
                if d2 = ':' then
                  match parseValue fuel r3 with
                  | none => none
                  | some (v, r4) =>
                    match parseObjTail fuel r4 with
                    | none => none
                    | some (t, r5) => some (.obj (.cons (String.mk k) v t), r5)
                else none
              | [] => none
          else none
        | [] => none
      else
        (parseNumber (c :: rest)).map (fun p => (.num p.1, p.2))
/-- Parse the rest of a JSON array after one element: a comma and another
element, or the closing bracket. -/
def parseArrTail : Nat → List Char → Option (JArr × List Char)
  | 0, _ => none
  | fuel + 1, input =>
    match skipWs input with
    | [] => none
    | c :: r =>
      if c = ']' then some (.nil, r)
      else if c = ',' then
        match parseValue fuel r with
        | none => none
        | some (v, r2) =>
          match parseArrTail fuel r2 with
          | none => none
          | some (t, r3) => some (.cons v t, r3)
      else none
/-- Parse the rest of a JSON object after one member: a comma and another
`"key": value` member, or the closing bracket. -/
def parseObjTail : Nat → List Char → Option (JObj × List Char)
  | 0, _ => none
  | fuel + 1, input =>
    match skipWs input with
    | c :: r =>
      if c.toNat = 125 then some (.nil, r)
      else if c = ',' then
        match skipWs r with
        | d :: r2 =>
          if d.toNat = 34 then
            match parseStrBody (r2.length + 1) r2 with
            | none => none
            | some (k, r3) =>
              match skipWs r3 with
              | d2 :: r4 =>
                if d2 = ':' then
                  match parseValue fuel r4 with
                  | none => none
                  | some (v, r5) =>
                    match parseObjTail fuel r5 with
                    | none => none
                    | some (t, r6) => some (.cons (String.mk k) v t, r6)
                else none
              | [] => none
          else none
        | [] => none
      else none
    | [] => none
end

/-- `json.loads`: parse a complete document, allowing trailing whitespace. -/
def parseJson (s : String) : Option JValue :=
  match parseValue (s.length + 1) s.data with
  | some (v, rest) => if skipWs rest = [] then some v else none
  | none => none

/-- The worker-side decode of a task payload field: base64 decode the
characters, UTF-8 decode the bytes, parse the text as JSON. -/
def decodePayload (s : String) : Option JValue :=
  match b64Decode s.data with
  | none => none
  | some bytes =>
    match utf8Decode bytes with
    | none => none
    | some chars => parseJson (String.mk chars)

/-- Does the input not begin with a decimal digit?  (A serialized number
parses back to itself exactly when the following text cannot extend it.) -/
def noDigitHead : List Char → Bool
  | [] => true
  | c :: _ => !isDigitCh c

/-! Fuel measures for the recursive-descent parser: enough fuel to parse
the serialization of a value. -/

mutual
def sizeV : JValue → Nat
  | .arr a => 1 + sizeA a
  | .obj o => 1 + sizeO o
  | _ => 1
def sizeA : JArr → Nat
  | .nil => 1
  | .cons v t => sizeV v + sizeA t
def sizeO : JObj → Nat
  | .nil => 1
  | .cons _ v t => sizeV v + sizeO t
end

/-! ### Program model

The stateful dispatch code of `base.py` is embedded as pure functions that
return an explicit event trace next to their outcome.  Exceptions are
modelled by their `args` tuple (a list of strings); the behaviour of the
external queueing service is an oracle (`Conn`). -/

/-- A Python exception's `args` tuple. -/
abbrev Exc := List String

/-- Result of a handler call or a queueing-service call: `None` or a value. -/
abbrev PyRes := Option JValue

/-- Observable events of one dispatch. -/
inductive Ev : Type
  /-- The bound handler (`self._base_task.run`) is invoked. -/
  | handlerRun : Ev
  /-- `connection.tasks_endpoint.create(parent=..., body=...)`: the wire
  request is constructed. -/
  | createCall : String → Ev
  /-- `.execute()` on the created single-task request. -/
  | submitCall : Ev
  /-- `batch.add(...)`: one task is added to the aggregate batch. -/
  | batchAdd : Ev
  /-- `batch.execute()`: the aggregate request is issued. -/
  | batchExec : Ev
  /-- `time.sleep(retry_interval)` inside the retry loop. -/
  | sleep : Ev
  /-- `logger.warning(...)` inside the retry loop. -/
  | warnLog : Ev
  /-- `logger.debug(...)` on a suppressed remote task. -/
  | debugLog : Ev
deriving DecidableEq

/-- Does an event touch the queueing service (build or issue a request)? -/
def Ev.isQueueTouch : Ev → Bool
  | .createCall _ => true
  | .submitCall => true
  | .batchAdd => true
  | .batchExec => true
  | _ => false

/-- Is the event a `tasks_endpoint.create` call? -/
def Ev.isCreateCall : Ev → Bool
  | .createCall _ => true
  | _ => false

/-- Occurrences of an event in a trace. -/
def countEv (e : Ev) : List Ev → Nat
  | [] => 0
  | x :: t => (if x = e then 1 else 0) + countEv e t

/-- Occurrences of `tasks_endpoint.create` calls in a trace. -/
def countCreate : List Ev → Nat
  | [] => 0
  | x :: t => (if x.isCreateCall then 1 else 0) + countCreate t

/-- Outcome of a wrapped call. -/
inductive RetryOutcome (α : Type) : Type
  /-- The call returned normally. -/
  | ok : α → RetryOutcome α
  /-- An exception with the given `args` tuple was raised. -/
  | raised : Exc → RetryOutcome α
  /-- An `AttributeError` on `None` was raised (`error.args` with
  `error = None` in `retry`, or `None.run` in `CloudTaskWrapper.run`). -/
  | attrError : RetryOutcome α
deriving DecidableEq

/-- Map a plain call result onto an outcome: a raised exception propagates
with its `args` unmodified. -/
def outcomeOfExcept : Except Exc PyRes → RetryOutcome PyRes
  | .ok v => .ok v
  | .error e => .raised e

/-- The `'Task scheduling limit exhausted'` marker that `retry` prepends to
the final error's `args`. -/
def exhaustedMarker : String := "Task scheduling limit exhausted"

/-- The loop of `retry(retry_limit, retry_interval)` around an operation
`f`; `op i` is the result of the `i`-th invocation of `f` (0-based) and
`callEv` the event such an invocation emits.  Mirrors the source: while
more than one attempt is left, call `f`; return its value on success; on
failure log a warning, sleep, decrement and continue; once the loop is
left, prepend the exhausted marker to the last error's `args` and re-raise
(an `AttributeError` if no call was ever made, since `error` is `None`). -/
def retryGo (callEv : Ev) (op : Nat → Except Exc PyRes) :
    Nat → Nat → Option Exc → List Ev × RetryOutcome PyRes
  | 0, _, lastErr | 1, _, lastErr =>
    ([], match lastErr with
         | some e => .raised (exhaustedMarker :: e)
         | none => .attrError)
  | attemptsLeft + 2, i, _ =>
    match op i with
    | .ok a => ([callEv], .ok a)
    | .error e =>
      let r := retryGo callEv op (attemptsLeft + 1) (i + 1) (some e)
      (callEv :: Ev.warnLog :: Ev.sleep :: r.1, r.2)

/-- `retry(retry_limit, retry_interval)(f)()` (the sleep interval only
shows up as the `sleep` event). -/
def retryRun (callEv : Ev) (op : Nat → Except Exc PyRes) (retry_limit : Nat) :
    List Ev × RetryOutcome PyRes :=
  retryGo callEv op retry_limit 0 none

/-- `apps.DCTConfig`: process-wide configuration (an external collaborator,
modelled by its four lookups used in `base.py`). -/
structure DCTConfig : Type where
  execute_locally : Bool
  block_remote_tasks : Bool
  task_handler_root_url : String
  project_location_name : String
deriving DecidableEq

/-- An inbound HTTP-framework request, reduced to its header mapping. -/
structure HttpRequest : Type where
  META : List (String × String)
deriving DecidableEq

/-- First value bound to `key` (`dict.get`: Python dicts have unique keys,
so first match suffices). -/
def metaGet (m : List (String × String)) (key : String) : Option String :=
  match m with
  | [] => none
  | (k, v) :: t => if k = key then some v else metaGet t key

/-- `CloudTaskMockRequest` after `__init__` ran `setup()`. -/
structure CloudTaskMockRequest : Type where
  request : Option HttpRequest
  task_id : Option String
  request_headers : Option (List (String × String))
deriving DecidableEq

/-- Python truthiness of an optional string (`None` and `''` are falsy). -/
def pyTruthyStr : Option String → Bool
  | none => false
  | some s => s ≠ ""

/-- Python truthiness of an optional association list (`None`, `{}` falsy). -/
def pyTruthyList : Option (List (String × String)) → Bool
  | none => false
  | some l => l ≠ []

/-- `CloudTaskMockRequest.setup()`: fill in a fresh `uuid.uuid4().hex` task
id when the given one is falsy, and an empty header dict when the given
headers are falsy.  The random 128-bit uuid is passed in as `freshId`. -/
def mockSetup (freshId : Fin (2 ^ 128)) (r : CloudTaskMockRequest) : CloudTaskMockRequest :=
  { r with
    task_id := if pyTruthyStr r.task_id then r.task_id else some (String.mk (hex32 freshId.val))
    request_headers := if pyTruthyList r.request_headers then r.request_headers else some [] }

/-- `CloudTaskMockRequest(request, task_id, request_headers)`. -/
def mkMockRequest (freshId : Fin (2 ^ 128)) (request : Option HttpRequest)
    (task_id : Option String) (request_headers : Option (List (String × String))) :
    CloudTaskMockRequest :=
  mockSetup freshId { request := request, task_id := task_id, request_headers := request_headers }

/-- `CloudTaskRequest`: the execution request reconstructed on the worker
side. -/
structure CloudTaskRequest : Type where
  request : HttpRequest
  task_id : Option String
  request_headers : List (String × String)
deriving DecidableEq

/-- The header field carrying the task name on an inbound cloud request. -/
def appengineTasknameKey : String := "HTTP_X_APPENGINE_TASKNAME"

/-- `CloudTaskRequest.from_cloud_request`. -/
def fromCloudRequest (request : HttpRequest) : CloudTaskRequest :=
  { request := request
    task_id := metaGet request.META appengineTasknameKey
    request_headers := request.META }

/-- Modelled from the spec: a bound handler object (`base_task`).  In the
repository `BaseTask` is an empty class; the registration code that sets
`internal_task_name` on it and gives it a `run` method is not under `src/`,
so the spec's "bound handler object" is taken at interface level: it
carries its internal task name and a `run` operation receiving the
synthesized execution request plus the payload entries as keyword
arguments (`none` when called with only the request). -/
structure BaseTaskM : Type where
  internal_task_name : String
  run : CloudTaskMockRequest → Option JObj → Except Exc PyRes

/-- Errors `CloudTaskWrapper.__init__` can raise. -/
inductive InitError : Type
  /-- `AttributeError`: no explicit name and `base_task` is `None`. -/
  | attributeError : InitError
  /-- `ValueError('Either internal_task_name or base_task should be provided')`. -/
  | missingName : InitError
  /-- `ValueError('Could not identify task handler URL of the worker service')`. -/
  | missingUrl : InitError
deriving DecidableEq

/-- A constructed `CloudTaskWrapper` (fields after a successful
`__init__` + `setup`). -/
structure CloudTaskWrapper : Type where
  base_task : Option BaseTaskM
  queue : String
  data : Option JObj
  internal_task_name : String
  task_handler_url : String
  is_remote : Bool

/-- `internal_task_name or self._base_task.internal_task_name`: take the
explicit name if truthy, otherwise read the attribute off `base_task`
(an `AttributeError` if that is `None`). -/
def resolveTaskName (explicitName : Option String) (base_task : Option BaseTaskM) :
    Except InitError String :=
  if pyTruthyStr explicitName then .ok (explicitName.getD "")
  else
    match base_task with
    | none => .error .attributeError
    | some bt => .ok bt.internal_task_name

/-- `task_handler_url or DCTConfig.task_handler_root_url()`. -/
def resolveHandlerUrl (explicitUrl : Option String) (cfg : DCTConfig) : String :=
  if pyTruthyStr explicitUrl then explicitUrl.getD "" else cfg.task_handler_root_url

/-- `CloudTaskWrapper.__init__` followed by `setup()`: resolve the name and
the handler URL, then fail fast on an empty name or URL. -/
def mkCloudTaskWrapper (base_task : Option BaseTaskM) (queue : String)
    (data : Option JObj) (internal_task_name : Option String)
    (task_handler_url : Option String) (is_remote : Bool) (cfg : DCTConfig) :
    Except InitError CloudTaskWrapper :=
  match resolveTaskName internal_task_name base_task with
  | .error e => .error e
  | .ok name =>
    let url := resolveHandlerUrl task_handler_url cfg
    if name = "" then .error .missingName
    else if url = "" then .error .missingUrl
    else .ok { base_task := base_task, queue := queue, data := data,
               internal_task_name := name, task_handler_url := url,
               is_remote := is_remote }

/-- Did construction succeed? -/
def initOk : Except InitError CloudTaskWrapper → Bool
  | .ok _ => true
  | .error _ => false

/-- Following the spec's words (for comparison with the constructor from
the source): the internal task name "resolved either from an explicit name
or from a bound handler object"; `none` when neither source yields one. -/
def specResolvedName (explicitName : Option String) (base_task : Option BaseTaskM) :
    Option String :=
  if pyTruthyStr explicitName then explicitName
  else base_task.map (fun bt => bt.internal_task_name)

/-- Following the spec's words: the task handler URL, "explicit, or from
configuration". -/
def specResolvedUrl (explicitUrl : Option String) (cfg : DCTConfig) : String :=
  if pyTruthyStr explicitUrl then explicitUrl.getD "" else cfg.task_handler_root_url

/-- Python truthiness of the payload dict (`None` and `{}` are falsy). -/
def pyTruthyObj : Option JObj → Bool
  | none => false
  | some .nil => false
  | some (.cons _ _ _) => true

/-- The keyword arguments `run` passes to the handler: the payload entries
when `self._data` is truthy, nothing otherwise. -/
def runKwargs (data : Option JObj) : Option JObj :=
  if pyTruthyObj data then data else none

/-- The JSON value `json.dumps` sees for `self._data` (`None` → `null`). -/
def dataJValue : Option JObj → JValue
  | none => .null
  | some o => .obj o

/-- `CloudTaskWrapper.run`: synthesize a default mock request unless one is
supplied, then call the bound handler with it and the payload entries.
`base_task` being `None` raises an `AttributeError`. -/
def runTask (freshId : Fin (2 ^ 128)) (w : CloudTaskWrapper)
    (mock_request : Option CloudTaskMockRequest) : List Ev × RetryOutcome PyRes :=
  let req := match mock_request with
    | some r => r
    | none => mkMockRequest freshId none none none
  match w.base_task with
  | none => ([], .attrError)
  | some bt =>
    match bt.run req (runKwargs w.data) with
    | .ok v => ([Ev.handlerRun], .ok v)
    | .error e => ([Ev.handlerRun], .raised e)

/-- `self._cloud_task_queue_name`:
`'{0}/queues/{1}'.format(DCTConfig.project_location_name(), self._queue)`
(written with positional indices here; the source uses auto-numbered
fields). -/
def cloudTaskQueueName (cfg : DCTConfig) (w : CloudTaskWrapper) : String :=
  cfg.project_location_name ++ "/queues/" ++ w.queue

/-- The `appEngineHttpRequest` part of the wire body. -/
structure AppEngineHttpRequest : Type where
  httpMethod : String
  relativeUrl : String
  payload : String
deriving DecidableEq

/-- The wire task resource body built by `create_cloud_task`. -/
structure TaskBody : Type where
  appEngineHttpRequest : AppEngineHttpRequest
deriving DecidableEq

/-- The base64-encoded payload string: `json.dumps` of
`{'internal_task_name': name, 'data': data}` with `ComplexEncoder`,
UTF-8 encoded, base64 encoded, decoded back to (ASCII) text. -/
def encodedPayload (name : String) (data : Option JObj) : String :=
  String.mk (b64Encode (utf8Encode (serVal
    (.obj (.cons "internal_task_name" (.str name)
      (.cons "data" (dataJValue data) .nil))))))

/-- The body `create_cloud_task` submits: method POST, relative URL = the
wrapper's handler URL, payload = the encoded payload. -/
def createCloudTaskBody (w : CloudTaskWrapper) : TaskBody :=
  { appEngineHttpRequest :=
    { httpMethod := "POST"
      relativeUrl := w.task_handler_url
      payload := encodedPayload w.internal_task_name w.data } }

/-- The queueing-service connection, as a behaviour oracle: the outcome of
constructing a request with `tasks_endpoint.create`, of the `i`-th
`.execute()` on the created request, and of the `i`-th `batch.execute()`. -/
structure Conn : Type where
  create_result : String → TaskBody → Except Exc Unit
  request_execute : Nat → Except Exc PyRes
  batch_execute : Nat → Except Exc PyRes

/-- `CloudTaskWrapper.create_cloud_task`: build the body and call
`tasks_endpoint.create(parent=..., body=...)`, returning the created
request (identified here by its body). -/
def createCloudTask (conn : Conn) (cfg : DCTConfig) (w : CloudTaskWrapper) :
    List Ev × Except Exc TaskBody :=
  let parent := cloudTaskQueueName cfg w
  let body := createCloudTaskBody w
  match conn.create_result parent body with
  | .ok _ => ([Ev.createCall parent], .ok body)
  | .error e => ([Ev.createCall parent], .error e)

/-- `CloudTaskWrapper.execute(retry_limit, retry_interval)`: run locally
when configuration says so and the task is not remote; return `None` after
a debug log when a remote task is administratively blocked; otherwise
build and create the wire request once, then `.execute()` it — exactly
once for a falsy `retry_limit`, wrapped in `retry` otherwise. -/
def executeTask (conn : Conn) (cfg : DCTConfig) (freshId : Fin (2 ^ 128))
    (w : CloudTaskWrapper) (retry_limit : Nat) : List Ev × RetryOutcome PyRes :=
  if cfg.execute_locally && !w.is_remote then
    runTask freshId w none
  else if w.is_remote && cfg.block_remote_tasks then
    ([Ev.debugLog], .ok none)
  else
    let c := createCloudTask conn cfg w
    match c.2 with
    | .error e => (c.1, .raised e)
    | .ok _ =>
      if retry_limit = 0 then
        (c.1 ++ [Ev.submitCall], outcomeOfExcept (conn.request_execute 0))
      else
        let r := retryRun Ev.submitCall conn.request_execute retry_limit
        (c.1 ++ r.1, r.2)

/-- The loop `for t in tasks: batch.add(t.create_cloud_task(), ...)`; a
failure while constructing one wire request propagates immediately. -/
def batchAddAll (conn : Conn) (cfg : DCTConfig) :
    List CloudTaskWrapper → List Ev × Except Exc Unit
  | [] => ([], .ok ())
  | t :: ts =>
    let c := createCloudTask conn cfg t
    match c.2 with
    | .error e => (c.1, .error e)
    | .ok _ =>
      let r := batchAddAll conn cfg ts
      (c.1 ++ Ev.batchAdd :: r.1, r.2)

/-- The error message of the batch-size gate. -/
def batchSizeError : Exc := ["Maximum number of tasks in batch cannot exceed 1000"]

/-- `batch_execute(tasks, retry_limit, retry_interval)`: reject 1000 or
more tasks before doing anything, add every task's created request to one
aggregate batch, then `batch.execute()` — exactly once for a falsy
`retry_limit`, wrapped in `retry` otherwise. -/
def batchExecute (conn : Conn) (cfg : DCTConfig) (tasks : List CloudTaskWrapper)
    (retry_limit : Nat) : List Ev × RetryOutcome PyRes :=
  if 1000 ≤ tasks.length then
    ([], .raised batchSizeError)
  else
    let a := batchAddAll conn cfg tasks
    match a.2 with
    | .error e => (a.1, .raised e)
    | .ok _ =>
      if retry_limit = 0 then
        (a.1 ++ [Ev.batchExec], outcomeOfExcept (conn.batch_execute 0))
      else
        let r := retryRun Ev.batchExec conn.batch_execute retry_limit
        (a.1 ++ r.1, r.2)

/-- What `batch_callback_logger` does when the batch reports one item. -/
inductive CbOutcome : Type
  /-- `exception` was `None`: the callback returns without raising. -/
  | nothing : CbOutcome
  /-- `Exception(decoded['error']['message'])` with a string message. -/
  | raisedMsg : String → CbOutcome
  /-- `Exception(...)` with a non-string decoded message value. -/
  | raisedVal : JValue → CbOutcome
  /-- `json.loads` / UTF-8 decoding failed before the raise. -/
  | decodeError : CbOutcome
  /-- `decoded['error']` or `...['message']` is missing or not a dict. -/
  | keyError : CbOutcome
deriving DecidableEq

/-- Value bound to `key` in a parsed JSON object; the last binding wins,
as in the dict `json.loads` builds. -/
def jObjGet : JObj → String → Option JValue
  | .nil, _ => none
  | .cons k v t, key =>
    match jObjGet t key with
    | some r => some r
    | none => if k = key then some v else none

/-- Python `decoded[key]` on a parsed JSON value. -/
def jIndex : JValue → String → Option JValue
  | .obj fs, key => jObjGet fs key
  | _, _ => none

/-- `batch_callback_logger(id, message, exception)`: nothing to do without
an exception; otherwise unpack `(resp, bytes) = exception.args`, decode the
bytes as UTF-8, parse them as JSON and raise an exception carrying the
embedded `error.message`. -/
def batchCallbackLogger (exception : Option (JValue × List Nat)) : CbOutcome :=
  match exception with
  | none => .nothing
  | some (_resp, bs) =>
    match utf8Decode bs with
    | none => .decodeError
    | some chars =>
      match parseJson (String.mk chars) with
      | none => .decodeError
      | some decoded =>
        match jIndex decoded "error" with
        | none => .keyError
        | some inner =>
          match jIndex inner "message" with
          | none => .keyError
          | some (.str m) => .raisedMsg m
          | some v => .raisedVal v

/-! ### Concrete fixtures (used to evaluate the model on closed inputs) -/

/-- A connection on which every call succeeds. -/
def fixtureConn : Conn :=
  { create_result := fun _ _ => .ok ()
    request_execute := fun _ => .ok (some (.str "created"))
    batch_execute := fun _ => .ok (some (.str "done")) }

/-- A connection on which constructing the wire request itself fails. -/
def fixtureConnFailCreate : Conn :=
  { create_result := fun _ _ => .error ["create boom"]
    request_execute := fun _ => .error ["net boom"]
    batch_execute := fun _ => .error ["net boom"] }

/-- Configuration with local execution on. -/
def fixtureCfgLocal : DCTConfig :=
  { execute_locally := true, block_remote_tasks := false,
    task_handler_root_url := "/tasks", project_location_name := "projects/p/locations/l" }

/-- Configuration for remote dispatch. -/
def fixtureCfgRemote : DCTConfig :=
  { execute_locally := false, block_remote_tasks := false,
    task_handler_root_url := "/tasks", project_location_name := "projects/p/locations/l" }

/-- A fixed fresh uuid value. -/
def fixtureId : Fin (2 ^ 128) := ⟨7, by norm_num⟩

/-- A bound handler object. -/
def fixtureTask : BaseTaskM :=
  { internal_task_name := "send_email"
    run := fun _ _ => .ok (some (.str "sent")) }

/-- A constructed wrapper bound to `fixtureTask`. -/
def fixtureWrapper : CloudTaskWrapper :=
  { base_task := some fixtureTask, queue := "default"
    data := some (.cons "to" (.str "a@example.com") .nil)
    internal_task_name := "send_email", task_handler_url := "/tasks", is_remote := false }

/-! ### Basic character and digit lemmas -/

theorem char_eq_of_toNat {c : Char} {m : Nat} (h : c.toNat = m) : c = Char.ofNat m := by
  rw [← h, Char.ofNat_toNat]

theorem char_valid_toNat (c : Char) :
    c.toNat < 55296 ∨ (57343 < c.toNat ∧ c.toNat < 1114112) := c.valid

theorem string_mk_data (s : String) : String.mk s.data = s := by cases s; rfl

theorem hexVal_hexDigitChar : ∀ n < 16, hexVal (hexDigitChar n) = some n := by decide

theorem digitCh_toNat : ∀ k < 10, (digitCh k).toNat = 48 + k := by decide

theorem isDigitCh_digitCh : ∀ k < 10, isDigitCh (digitCh k) = true := by decide

theorem isDigitCh_toNat {c : Char} (h : isDigitCh c = true) :
    48 ≤ c.toNat ∧ c.toNat ≤ 57 := by
  simp only [isDigitCh, Bool.and_eq_true, decide_eq_true_eq] at h
  exact h

theorem natCharsCore_acc : ∀ (fuel n : Nat) (acc : List Char),
    natCharsCore fuel n acc = natCharsCore fuel n [] ++ acc
  | 0, _, _ => by simp [natCharsCore]
  | fuel + 1, n, acc => by
    by_cases h : n = 0
    · simp [natCharsCore, h]
    · rw [natCharsCore, natCharsCore, if_neg h, if_neg h,
        natCharsCore_acc fuel (n / 10) (digitCh (n % 10) :: acc),
        natCharsCore_acc fuel (n / 10) [digitCh (n % 10)]]
      simp

theorem natCharsCore_fuel : ∀ (f g n : Nat) (acc : List Char), n < f → n < g →
    natCharsCore f n acc = natCharsCore g n acc := by
  intro f
  induction f with
  | zero => omega
  | succ f ih =>
    intro g n acc hf hg
    cases g with
    | zero => omega
    | succ g =>
      by_cases h : n = 0
      · simp [natCharsCore, h]
      · rw [natCharsCore, natCharsCore, if_neg h, if_neg h]
        have hdiv : n / 10 < n := Nat.div_lt_self (by omega) (by omega)
        exact ih g (n / 10) _ (by omega) (by omega)

theorem digitsList_zero : digitsList 0 = [] := rfl

theorem digitsList_rec (n : Nat) (h : n ≠ 0) :
    digitsList n = digitsList (n / 10) ++ [digitCh (n % 10)] := by
  have hdiv : n / 10 < n := Nat.div_lt_self (by omega) (by omega)
  rw [digitsList, natCharsCore, if_neg h, natCharsCore_acc,
    natCharsCore_fuel n (n / 10 + 1) (n / 10) [] (by omega) (by omega)]
  rfl

theorem digitsList_all_digits : ∀ n, ∀ c ∈ digitsList n, isDigitCh c = true := by
  intro n
  induction n using Nat.strong_induction_on with
  | _ n ih =>
    by_cases h : n = 0
    · simp [h, digitsList_zero]
    · rw [digitsList_rec n h]
      intro c hc
      rcases List.mem_append.mp hc with h1 | h1
      · exact ih (n / 10) (Nat.div_lt_self (by omega) (by omega)) c h1
      · simp only [List.mem_singleton] at h1
        subst h1
        exact isDigitCh_digitCh (n % 10) (Nat.mod_lt _ (by omega))

theorem digitsList_ne_nil (n : Nat) (h : n ≠ 0) : digitsList n ≠ [] := by
  rw [digitsList_rec n h]
  simp

/-- The value a run of digit characters folds to. -/
theorem foldl_digitsList : ∀ n acc : Nat,
    List.foldl (fun a c => a * 10 + (c.toNat - 48)) acc (digitsList n)
      = acc * 10 ^ (digitsList n).length + n := by
  intro n
  induction n using Nat.strong_induction_on with
  | _ n ih =>
    intro acc
    by_cases h : n = 0
    · simp [h, digitsList_zero]
    · have hdiv : n / 10 < n := Nat.div_lt_self (by omega) (by omega)
      rw [digitsList_rec n h, List.foldl_append, ih (n / 10) hdiv acc]
      simp only [List.foldl_cons, List.foldl_nil, List.length_append,
        List.length_singleton]
      rw [digitCh_toNat (n % 10) (Nat.mod_lt _ (by omega))]
      rw [pow_succ]
      have : 48 + n % 10 - 48 = n % 10 := by omega
      rw [this]
      have hmod : n % 10 + 10 * (n / 10) = n := Nat.mod_add_div n 10
      ring_nf
      omega

theorem parseDigitsAux_run : ∀ (ds rest : List Char) (acc : Nat),
    (∀ c ∈ ds, isDigitCh c = true) → noDigitHead rest = true →
    parseDigitsAux (ds ++ rest) acc
      = (List.foldl (fun a c => a * 10 + (c.toNat - 48)) acc ds, rest)
  | [], rest, acc, _, hrest => by
    cases rest with
    | nil => rfl
    | cons c cs =>
      simp only [noDigitHead, Bool.not_eq_eq_eq_not, Bool.not_true] at hrest
      simp [parseDigitsAux, hrest]
  | d :: ds, rest, acc, hds, hrest => by
    have hd : isDigitCh d = true := hds d (by simp)
    simp only [List.cons_append, parseDigitsAux, hd, if_true, List.foldl_cons]
    exact parseDigitsAux_run ds rest _ (fun c hc => hds c (by simp [hc])) hrest

theorem parseNumber_natChars (n : Nat) (rest : List Char) (h : noDigitHead rest = true) :
    parseNumber (natChars n ++ rest) = some ((n : Int), rest) := by
  by_cases h0 : n = 0
  · subst h0
    have := parseDigitsAux_run ['0'] rest 0 (by decide) h
    simp only [natChars, if_pos rfl, List.cons_append, List.nil_append] at this ⊢
    simp [parseNumber, isDigitCh, this]
  · rcases hne : digitsList n with _ | ⟨c, cs⟩
    · exact absurd hne (digitsList_ne_nil n h0)
    · have hcd : isDigitCh c = true := by
        apply digitsList_all_digits n
        rw [hne]; simp
      have hrun := parseDigitsAux_run (digitsList n) rest 0 (digitsList_all_digits n) h
      rw [foldl_digitsList] at hrun
      have hcne : c ≠ '-' := by
        intro hc
        subst hc
        simp [isDigitCh] at hcd
      rw [natChars, if_neg h0, hne]
      simp only [List.cons_append, parseNumber, if_neg hcne, hcd, if_true]
      rw [hne] at hrun
      simp only [List.cons_append] at hrun
      rw [hrun]
      simp

theorem parseNumber_intChars (i : Int) (rest : List Char) (h : noDigitHead rest = true) :
    parseNumber (intChars i ++ rest) = some (i, rest) := by
  cases i with
  | ofNat n => exact parseNumber_natChars n rest h
  | negSucc m =>
    have hnat := parseDigitsAux_run (digitsList (m + 1)) rest 0
      (digitsList_all_digits (m + 1)) h
    rw [foldl_digitsList] at hnat
    rcases hne : digitsList (m + 1) with _ | ⟨c, cs⟩
    · exact absurd hne (digitsList_ne_nil (m + 1) (by omega))
    · have hcd : isDigitCh c = true := by
        apply digitsList_all_digits (m + 1)
        rw [hne]; simp
      rw [intChars, natChars, if_neg (by omega : ¬m + 1 = 0), hne]
      simp only [List.cons_append, parseNumber, if_true]
      rw [hne] at hnat
      simp only [List.cons_append] at hnat
      simp only [hcd, if_true, hnat]
      simp [Int.negSucc_eq]

theorem toNat_ofNat_valid {m : Nat} (h : m < 55296 ∨ (57343 < m ∧ m < 1114112)) :
    (Char.ofNat m).toNat = m := by
  have hv : m.isValidChar := by
    rcases h with h | h
    · exact Or.inl h
    · exact Or.inr ⟨by omega, h.2⟩
  rw [Char.ofNat, dif_pos hv]
  rfl

theorem qtCh_toNat : qtCh.toNat = 34 := by decide

theorem bsCh_toNat : bsCh.toNat = 92 := by decide

theorem lbCh_toNat : lbCh.toNat = 123 := by decide

theorem rbCh_toNat : rbCh.toNat = 125 := by decide

/-! ### String escape roundtrip -/

theorem parseHex4_hex4 (n : Nat) (tail : List Char) (h : n < 65536) :
    parseHex4 (hex4 n ++ tail) = some (n, tail) := by
  have e0 := hexVal_hexDigitChar (n / 4096 % 16) (by omega)
  have e1 := hexVal_hexDigitChar (n / 256 % 16) (by omega)
  have e2 := hexVal_hexDigitChar (n / 16 % 16) (by omega)
  have e3 := hexVal_hexDigitChar (n % 16) (by omega)
  have hn : n / 4096 % 16 * 4096 + n / 256 % 16 * 256 + n / 16 % 16 * 16 + n % 16 = n := by
    omega
  simp only [hex4, List.cons_append, List.nil_append, parseHex4, e0, e1, e2, e3, hn]

theorem parseU_plain (n : Nat) (tail : List Char) (hlt : n < 65536)
    (hs : ¬(55296 ≤ n ∧ n < 57344)) :
    parseU (hex4 n ++ tail) = some (Char.ofNat n, tail) := by
  have h := parseHex4_hex4 n tail hlt
  have hs1 : ¬(55296 ≤ n ∧ n < 56320) := by omega
  have hs2 : ¬(56320 ≤ n ∧ n < 57344) := by omega
  rw [parseU, h]
  simp only [if_neg hs1, if_neg hs2]

theorem parseLowSurrogate_run (m : Nat) (tail : List Char)
    (hm : 56320 ≤ m ∧ m < 57344) :
    parseLowSurrogate (bsCh :: 'u' :: (hex4 m ++ tail)) = some (m, tail) := by
  have h := parseHex4_hex4 m tail (by omega)
  simp only [parseLowSurrogate, bsCh_toNat, h, if_pos hm]
  simp

theorem parseU_pair (hi lo : Nat) (tail : List Char)
    (hhi : 55296 ≤ hi ∧ hi < 56320) (hlo : 56320 ≤ lo ∧ lo < 57344) :
    parseU (hex4 hi ++ (bsCh :: 'u' :: (hex4 lo ++ tail)))
      = some (Char.ofNat (65536 + (hi - 55296) * 1024 + (lo - 56320)), tail) := by
  have h1 := parseHex4_hex4 hi (bsCh :: 'u' :: (hex4 lo ++ tail)) (by omega)
  have h2 := parseLowSurrogate_run lo tail hlo
  rw [parseU, h1]
  simp only [if_pos hhi, h2]

theorem parseEscape_uCons (rest : List Char) :
    parseEscape ('u' :: rest) = parseU rest := by
  simp [parseEscape]

theorem parseStrBody_escChar (c : Char) (fuel : Nat) (tail : List Char) :
    parseStrBody (fuel + 1) (escChar c ++ tail)
      = (parseStrBody fuel tail).map (fun p => (c :: p.1, p.2)) := by
  have hv := char_valid_toNat c
  by_cases h34 : c.toNat = 34
  · rw [char_eq_of_toNat h34]
    simp [escChar, parseStrBody, parseEscape, qtCh, bsCh]
  by_cases h92 : c.toNat = 92
  · rw [char_eq_of_toNat h92]
    simp [escChar, parseStrBody, parseEscape, qtCh, bsCh]
  by_cases hpr : 32 ≤ c.toNat ∧ c.toNat ≤ 126
  · have hesc : escChar c = [c] := by
      simp only [escChar, if_neg h34, if_neg h92, if_pos hpr]
    rw [hesc]
    simp only [List.cons_append, List.nil_append, parseStrBody, if_neg h34, if_neg h92,
      if_pos hpr.1]
    simp
  by_cases h8 : c.toNat = 8
  · rw [char_eq_of_toNat h8]
    simp [escChar, parseStrBody, parseEscape, qtCh, bsCh]
  by_cases h9 : c.toNat = 9
  · rw [char_eq_of_toNat h9]
    simp [escChar, parseStrBody, parseEscape, qtCh, bsCh]
  by_cases h10 : c.toNat = 10
  · rw [char_eq_of_toNat h10]
    simp [escChar, parseStrBody, parseEscape, qtCh, bsCh]
  by_cases h12 : c.toNat = 12
  · rw [char_eq_of_toNat h12]
    simp [escChar, parseStrBody, parseEscape, qtCh, bsCh]
  by_cases h13 : c.toNat = 13
  · rw [char_eq_of_toNat h13]
    simp [escChar, parseStrBody, parseEscape, qtCh, bsCh]
  by_cases hlt : c.toNat < 65536
  · have hesc : escChar c = bsCh :: 'u' :: hex4 c.toNat := by
      simp only [escChar, if_neg h34, if_neg h92, if_neg hpr, if_neg h8, if_neg h9,
        if_neg h10, if_neg h12, if_neg h13, if_pos hlt]
    rw [hesc]
    have hu := parseU_plain c.toNat tail hlt (by omega)
    simp only [List.cons_append]
    rw [parseStrBody, if_neg (by decide : ¬(bsCh.toNat = 34)),
      if_pos (by decide : bsCh.toNat = 92), parseEscape_uCons, hu, Char.ofNat_toNat]
  · have hge : 65536 ≤ c.toNat := by omega
    have hub : c.toNat < 1114112 := by omega
    have hesc : escChar c =
        (bsCh :: 'u' :: hex4 (55296 + (c.toNat - 65536) / 1024)) ++
          (bsCh :: 'u' :: hex4 (56320 + (c.toNat - 65536) % 1024)) := by
      simp only [escChar, if_neg h34, if_neg h92, if_neg hpr, if_neg h8, if_neg h9,
        if_neg h10, if_neg h12, if_neg h13, if_neg hlt]
    rw [hesc]
    have hu := parseU_pair (55296 + (c.toNat - 65536) / 1024)
      (56320 + (c.toNat - 65536) % 1024) tail
      ⟨by omega, by
        have : (c.toNat - 65536) / 1024 < 1024 := by omega
        omega⟩
      ⟨by omega, by omega⟩
    have hcomb : 65536 + (55296 + (c.toNat - 65536) / 1024 - 55296) * 1024
        + (56320 + (c.toNat - 65536) % 1024 - 56320) = c.toNat := by omega
    rw [hcomb] at hu
    simp only [List.cons_append, List.append_assoc]
    rw [parseStrBody, if_neg (by decide : ¬(bsCh.toNat = 34)),
      if_pos (by decide : bsCh.toNat = 92), parseEscape_uCons, hu, Char.ofNat_toNat]

theorem parseStrBody_escList : ∀ (s rest : List Char) (fuel : Nat), s.length < fuel →
    parseStrBody fuel (escList s ++ qtCh :: rest) = some (s, rest) := by
  intro s
  induction s with
  | nil =>
    intro rest fuel h
    cases fuel with
    | zero => omega
    | succ f => simp [escList, parseStrBody, qtCh_toNat]
  | cons c cs ih =>
    intro rest fuel h
    cases fuel with
    | zero => omega
    | succ f =>
      rw [escList, List.append_assoc, parseStrBody_escChar,
        ih rest f (by simp at h; omega)]
      rfl

theorem escChar_length_pos (c : Char) : 1 ≤ (escChar c).length := by
  simp only [escChar]
  split_ifs <;> simp [hex4]

theorem escList_length_le : ∀ s : List Char, s.length ≤ (escList s).length
  | [] => by simp [escList]
  | c :: cs => by
    have h1 := escChar_length_pos c
    have h2 := escList_length_le cs
    simp only [escList, List.length_append, List.length_cons]
    omega

/-! ### UTF-8 roundtrip -/

theorem utf8Char_lt (c : Char) : ∀ b ∈ utf8Char c, b < 256 := by
  have hv := char_valid_toNat c
  intro b hb
  simp only [utf8Char] at hb
  split_ifs at hb with h1 h2 h3
  · simp only [List.mem_singleton] at hb
    omega
  · simp only [List.mem_cons, List.not_mem_nil, or_false] at hb
    rcases hb with rfl | rfl <;> omega
  · simp only [List.mem_cons, List.not_mem_nil, or_false] at hb
    rcases hb with rfl | rfl | rfl <;> omega
  · simp only [List.mem_cons, List.not_mem_nil, or_false] at hb
    rcases hb with rfl | rfl | rfl | rfl <;> omega

theorem utf8Encode_lt : ∀ l : List Char, ∀ b ∈ utf8Encode l, b < 256
  | [], _, hb => by simp [utf8Encode] at hb
  | c :: cs, b, hb => by
    rw [utf8Encode, List.mem_append] at hb
    rcases hb with hb | hb
    · exact utf8Char_lt c b hb
    · exact utf8Encode_lt cs b hb

theorem utf8Char_ne_nil (c : Char) : utf8Char c ≠ [] := by
  simp only [utf8Char]
  split_ifs <;> simp

theorem utf8Char_length_pos (c : Char) : 1 ≤ (utf8Char c).length := by
  simp only [utf8Char]
  split_ifs <;> simp

theorem utf8DecodeCh_utf8Char (c : Char) (rest : List Nat) :
    utf8DecodeCh (utf8Char c ++ rest) = some (c.toNat, rest) := by
  have hv := char_valid_toNat c
  by_cases h1 : c.toNat < 128
  · have he : utf8Char c = [c.toNat] := by simp only [utf8Char, if_pos h1]
    rw [he, List.cons_append, List.nil_append, utf8DecodeCh, if_pos h1]
  by_cases h2 : c.toNat < 2048
  · have he : utf8Char c = [192 + c.toNat / 64, 128 + c.toNat % 64] := by
      simp only [utf8Char, if_neg h1, if_pos h2]
    have c1 : ¬(192 + c.toNat / 64 < 128) := by omega
    have c2 : ¬(192 + c.toNat / 64 < 192) := by omega
    have c3 : 192 + c.toNat / 64 < 224 := by omega
    have c4 : 128 ≤ 128 + c.toNat % 64 ∧ 128 + c.toNat % 64 < 192 := by omega
    have harith : (192 + c.toNat / 64 - 192) * 64 + (128 + c.toNat % 64 - 128)
        = c.toNat := by omega
    rw [he, List.cons_append, List.cons_append, List.nil_append, utf8DecodeCh,
      if_neg c1, if_neg c2, if_pos c3, utf8Tail2, if_pos c4]
    simp only [harith, if_pos (show 128 ≤ c.toNat by omega)]
  by_cases h3 : c.toNat < 65536
  · have he : utf8Char c =
        [224 + c.toNat / 4096, 128 + c.toNat / 64 % 64, 128 + c.toNat % 64] := by
      simp only [utf8Char, if_neg h1, if_neg h2, if_pos h3]
    have c1 : ¬(224 + c.toNat / 4096 < 128) := by omega
    have c2 : ¬(224 + c.toNat / 4096 < 192) := by omega
    have c3 : ¬(224 + c.toNat / 4096 < 224) := by omega
    have c4 : 224 + c.toNat / 4096 < 240 := by omega
    have c5 : (128 ≤ 128 + c.toNat / 64 % 64 ∧ 128 + c.toNat / 64 % 64 < 192)
        ∧ (128 ≤ 128 + c.toNat % 64 ∧ 128 + c.toNat % 64 < 192) := by omega
    have harith : (224 + c.toNat / 4096 - 224) * 4096
        + (128 + c.toNat / 64 % 64 - 128) * 64 + (128 + c.toNat % 64 - 128)
        = c.toNat := by omega
    have c6 : 2048 ≤ c.toNat ∧ ¬(55296 ≤ c.toNat ∧ c.toNat < 57344) := by omega
    rw [he, List.cons_append, List.cons_append, List.cons_append, List.nil_append,
      utf8DecodeCh, if_neg c1, if_neg c2, if_neg c3, if_pos c4, utf8Tail3, if_pos c5]
    simp only [harith, if_pos c6]
  · have he : utf8Char c =
        [240 + c.toNat / 262144, 128 + c.toNat / 4096 % 64,
         128 + c.toNat / 64 % 64, 128 + c.toNat % 64] := by
      simp only [utf8Char, if_neg h1, if_neg h2, if_neg h3]
    have c1 : ¬(240 + c.toNat / 262144 < 128) := by omega
    have c2 : ¬(240 + c.toNat / 262144 < 192) := by omega
    have c3 : ¬(240 + c.toNat / 262144 < 224) := by omega
    have c4 : ¬(240 + c.toNat / 262144 < 240) := by omega
    have c5 : 240 + c.toNat / 262144 < 248 := by omega
    have c6 : (128 ≤ 128 + c.toNat / 4096 % 64 ∧ 128 + c.toNat / 4096 % 64 < 192)
        ∧ (128 ≤ 128 + c.toNat / 64 % 64 ∧ 128 + c.toNat / 64 % 64 < 192)
        ∧ (128 ≤ 128 + c.toNat % 64 ∧ 128 + c.toNat % 64 < 192) := by omega
    have harith : (240 + c.toNat / 262144 - 240) * 262144
        + (128 + c.toNat / 4096 % 64 - 128) * 4096
        + (128 + c.toNat / 64 % 64 - 128) * 64 + (128 + c.toNat % 64 - 128)
        = c.toNat := by omega
    have c7 : 65536 ≤ c.toNat ∧ c.toNat < 1114112 := by omega
    rw [he, List.cons_append, List.cons_append, List.cons_append, List.cons_append,
      List.nil_append, utf8DecodeCh, if_neg c1, if_neg c2, if_neg c3, if_neg c4,
      if_pos c5, utf8Tail4, if_pos c6]
    simp only [harith, if_pos c7]

theorem utf8DecodeGo_encode : ∀ (l : List Char) (fuel : Nat), l.length < fuel →
    utf8DecodeGo fuel (utf8Encode l) = some l := by
  intro l
  induction l with
  | nil =>
    intro fuel h
    cases fuel with
    | zero => omega
    | succ f => simp [utf8Encode, utf8DecodeGo]
  | cons c cs ih =>
    intro fuel h
    cases fuel with
    | zero => omega
    | succ f =>
      rw [utf8Encode, utf8DecodeGo]
      have hne : ¬(utf8Char c ++ utf8Encode cs = []) := by
        intro hc
        exact utf8Char_ne_nil c (List.append_eq_nil.mp hc).1
      rw [if_neg hne, utf8DecodeCh_utf8Char]
      simp [ih f (by simp at h; omega), Char.ofNat_toNat]

theorem utf8Encode_length_ge : ∀ l : List Char, l.length ≤ (utf8Encode l).length
  | [] => by simp [utf8Encode]
  | c :: cs => by
    have h1 := utf8Char_length_pos c
    have h2 := utf8Encode_length_ge cs
    simp only [utf8Encode, List.length_append, List.length_cons]
    omega

theorem utf8Decode_utf8Encode (l : List Char) : utf8Decode (utf8Encode l) = some l := by
  have := utf8Encode_length_ge l
  exact utf8DecodeGo_encode l ((utf8Encode l).length + 1) (by omega)

/-! ### Base64 roundtrip -/

theorem b64Index_b64Char : ∀ n < 64, b64Index (b64Char n) = some n := by decide

theorem b64Char_ne_eq : ∀ n < 64, b64Char n ≠ '=' := by decide

theorem b64Decode_b64Encode : ∀ bs : List Nat, (∀ b ∈ bs, b < 256) →
    b64Decode (b64Encode bs) = some bs
  | [], _ => rfl
  | [a], h => by
    have ha : a < 256 := h a (by simp)
    have i0 := b64Index_b64Char (a / 4) (by omega)
    have i1 := b64Index_b64Char (a % 4 * 16) (by omega)
    rw [b64Encode, b64Decode, if_pos ⟨rfl, rfl, rfl⟩]
    simp only [i0, i1]
    rw [if_pos (by omega : a % 4 * 16 % 16 = 0)]
    have : a / 4 * 4 + a % 4 * 16 / 16 = a := by omega
    rw [this]
  | [a, b], h => by
    have ha : a < 256 := h a (by simp)
    have hb : b < 256 := h b (by simp)
    have i0 := b64Index_b64Char (a / 4) (by omega)
    have i1 := b64Index_b64Char (a % 4 * 16 + b / 16) (by omega)
    have i2 := b64Index_b64Char (b % 16 * 4) (by omega)
    have ne2 : ¬(b64Char (b % 16 * 4) = '=' ∧ ('=' : Char) = '=' ∧ ([] : List Char) = []) := by
      intro hcon
      exact b64Char_ne_eq (b % 16 * 4) (by omega) hcon.1
    rw [b64Encode, b64Decode, if_neg ne2, if_pos ⟨rfl, rfl⟩]
    simp only [i0, i1, i2]
    rw [if_pos (by omega : b % 16 * 4 % 4 = 0)]
    have e1 : a / 4 * 4 + (a % 4 * 16 + b / 16) / 16 = a := by omega
    have e2 : (a % 4 * 16 + b / 16) % 16 * 16 + b % 16 * 4 / 4 = b := by omega
    rw [e1, e2]
  | a :: b :: c :: rest, h => by
    have ha : a < 256 := h a (by simp)
    have hb : b < 256 := h b (by simp)
    have hc : c < 256 := h c (by simp)
    have i0 := b64Index_b64Char (a / 4) (by omega)
    have i1 := b64Index_b64Char (a % 4 * 16 + b / 16) (by omega)
    have i2 := b64Index_b64Char (b % 16 * 4 + c / 64) (by omega)
    have i3 := b64Index_b64Char (c % 64) (by omega)
    have ih := b64Decode_b64Encode rest (fun x hx => h x (by simp [hx]))
    have ne1 : ¬(b64Char (b % 16 * 4 + c / 64) = '=' ∧ b64Char (c % 64) = '='
        ∧ b64Encode rest = []) := by
      intro hcon
      exact b64Char_ne_eq (b % 16 * 4 + c / 64) (by omega) hcon.1
    have ne2 : ¬(b64Char (c % 64) = '=' ∧ b64Encode rest = []) := by
      intro hcon
      exact b64Char_ne_eq (c % 64) (by omega) hcon.1
    rw [b64Encode, b64Decode, if_neg ne1, if_neg ne2]
    simp only [i0, i1, i2, i3, ih]
    have e1 : a / 4 * 4 + (a % 4 * 16 + b / 16) / 16 = a := by omega
    have e2 : (a % 4 * 16 + b / 16) % 16 * 16 + (b % 16 * 4 + c / 64) / 4 = b := by omega
    have e3 : (b % 16 * 4 + c / 64) % 4 * 64 + c % 64 = c := by omega
    rw [e1, e2, e3]

/-! ### Serializer/parser roundtrip -/

theorem skipWs_not_ws {c : Char} (l : List Char) (h : isWsCh c = false) :
    skipWs (c :: l) = c :: l := by
  rw [skipWs, h]
  simp

theorem skipWs_space (l : List Char) : skipWs (' ' :: l) = skipWs l := by
  rw [skipWs]
  simp [isWsCh]

theorem parseValue_space (fuel : Nat) (l : List Char) :
    parseValue (fuel + 1) (' ' :: l) = parseValue (fuel + 1) l := by
  rw [parseValue, parseValue, skipWs_space]

theorem isDigitCh_not_ws {c : Char} (h : isDigitCh c = true) : isWsCh c = false := by
  have h2 := isDigitCh_toNat h
  simp only [isWsCh, Bool.or_eq_false_iff, decide_eq_false_iff_not]
  omega

theorem isDigitCh_facts {c : Char} (h : isDigitCh c = true) :
    ¬(c.toNat = 34) ∧ c ≠ 'n' ∧ c ≠ 't' ∧ c ≠ 'f' ∧ c ≠ '[' ∧ c ≠ lbCh ∧ c ≠ ']' := by
  have h2 := isDigitCh_toNat h
  refine ⟨by omega, ?_, ?_, ?_, ?_, ?_, ?_⟩ <;>
    exact fun he => absurd (he ▸ h) (by decide)

theorem serVal_head (v : JValue) :
    ∃ c cs, serVal v = c :: cs ∧ isWsCh c = false ∧ c ≠ ']' := by
  cases v with
  | null => exact ⟨'n', _, rfl, by decide, by decide⟩
  | bool b =>
    cases b
    · exact ⟨'f', _, rfl, by decide, by decide⟩
    · exact ⟨'t', _, rfl, by decide, by decide⟩
  | num i =>
    cases i with
    | ofNat n =>
      by_cases h0 : n = 0
      · exact ⟨'0', [], by simp [serVal, intChars, natChars, h0], by decide, by decide⟩
      · rcases hne : digitsList n with _ | ⟨c, cs⟩
        · exact absurd hne (digitsList_ne_nil n h0)
        · have hd : isDigitCh c = true := by
            apply digitsList_all_digits n
            rw [hne]; simp
          exact ⟨c, cs, by simp [serVal, intChars, natChars, h0, hne],
            isDigitCh_not_ws hd, (isDigitCh_facts hd).2.2.2.2.2.2⟩
    | negSucc m => exact ⟨'-', _, rfl, by decide, by decide⟩
  | str s => exact ⟨qtCh, _, rfl, by decide, by decide⟩
  | uuid u => exact ⟨qtCh, _, rfl, by decide, by decide⟩
  | arr a =>
    cases a
    · exact ⟨'[', _, rfl, by decide, by decide⟩
    · exact ⟨'[', _, rfl, by decide, by decide⟩
  | obj o =>
    cases o
    · exact ⟨lbCh, _, rfl, by decide, by decide⟩
    · exact ⟨lbCh, _, rfl, by decide, by decide⟩

theorem sizeV_pos (v : JValue) : 1 ≤ sizeV v := by
  cases v <;> simp [sizeV]

theorem sizeA_pos (a : JArr) : 1 ≤ sizeA a := by
  cases a with
  | nil => simp [sizeA]
  | cons v t =>
    have := sizeV_pos v
    simp [sizeA]
    omega

theorem sizeO_pos (o : JObj) : 1 ≤ sizeO o := by
  cases o with
  | nil => simp [sizeO]
  | cons k v t =>
    have := sizeV_pos v
    simp [sizeO]
    omega

theorem noDigitHead_serArrTail (t : JArr) (rest : List Char) :
    noDigitHead (serArrTail t ++ ']' :: rest) = true := by
  cases t <;> simp [serArrTail, noDigitHead, isDigitCh]

theorem noDigitHead_serObjTail (t : JObj) (rest : List Char) :
    noDigitHead (serObjTail t ++ rbCh :: rest) = true := by
  cases t <;> simp [serObjTail, noDigitHead, isDigitCh, rbCh]

theorem parseValue_escString (s : String) (fuel : Nat) (rest : List Char) :
    parseValue (fuel + 1) (escString s ++ rest) = some (.str s, rest) := by
  have hnorm : escString s ++ rest = qtCh :: (escList s.data ++ qtCh :: rest) := by
    simp [escString]
  rw [hnorm, parseValue, skipWs_not_ws _ (by decide : isWsCh qtCh = false)]
  dsimp only
  rw [if_pos qtCh_toNat]
  have hlen : s.data.length < (escList s.data ++ qtCh :: rest).length + 1 := by
    have := escList_length_le s.data
    simp only [List.length_append, List.length_cons]
    omega
  rw [parseStrBody_escList s.data rest _ hlen]
  simp [string_mk_data]

mutual

theorem rtVal : ∀ (v : JValue) (fuel : Nat) (rest : List Char), sizeV v ≤ fuel →
    noDigitHead rest = true →
    parseValue fuel (serVal v ++ rest) = some (stripVal v, rest)
  | v, 0, _, hf, _ => by
    have := sizeV_pos v
    omega
  | .null, fuel + 1, rest, _, _ => by
    have hnorm : serVal .null ++ rest = 'n' :: 'u' :: 'l' :: 'l' :: rest := rfl
    rw [hnorm, parseValue, skipWs_not_ws _ (by decide : isWsCh 'n' = false)]
    dsimp only
    simp [stripVal]
  | .bool true, fuel + 1, rest, _, _ => by
    have hnorm : serVal (.bool true) ++ rest = 't' :: 'r' :: 'u' :: 'e' :: rest := rfl
    rw [hnorm, parseValue, skipWs_not_ws _ (by decide : isWsCh 't' = false)]
    dsimp only
    simp [stripVal]
  | .bool false, fuel + 1, rest, _, _ => by
    have hnorm : serVal (.bool false) ++ rest = 'f' :: 'a' :: 'l' :: 's' :: 'e' :: rest := rfl
    rw [hnorm, parseValue, skipWs_not_ws _ (by decide : isWsCh 'f' = false)]
    dsimp only
    simp [stripVal]
  | .num (.ofNat n), fuel + 1, rest, _, hr => by
    by_cases h0 : n = 0
    · subst h0
      have hnorm : serVal (.num (Int.ofNat 0)) ++ rest = '0' :: rest := by
        simp [serVal, intChars, natChars]
      have hp : parseNumber ('0' :: rest) = some ((0 : Int), rest) := by
        simpa [natChars] using parseNumber_natChars 0 rest hr
      rw [hnorm, parseValue, skipWs_not_ws _ (by decide : isWsCh '0' = false)]
      dsimp only
      simp [hp, stripVal, lbCh]
    · rcases hne : digitsList n with _ | ⟨c, cs⟩
      · exact absurd hne (digitsList_ne_nil n h0)
      · have hd : isDigitCh c = true := by
          apply digitsList_all_digits n
          rw [hne]; simp
        obtain ⟨f34, fn, ft, ff, fbr, flb, _⟩ := isDigitCh_facts hd
        have hnorm : serVal (.num (.ofNat n)) ++ rest = c :: (cs ++ rest) := by
          simp [serVal, intChars, natChars, h0, hne]
        have hp := parseNumber_natChars n rest hr
        rw [natChars, if_neg h0, hne] at hp
        simp only [List.cons_append] at hp
        rw [hnorm, parseValue, skipWs_not_ws _ (isDigitCh_not_ws hd)]
        dsimp only
        rw [if_neg f34, if_neg fn, if_neg ft, if_neg ff, if_neg fbr, if_neg flb, hp]
        simp [stripVal]
  | .num (.negSucc m), fuel + 1, rest, _, hr => by
    have hnorm : serVal (.num (.negSucc m)) ++ rest
        = '-' :: (natChars (m + 1) ++ rest) := by
      simp [serVal, intChars]
    have hp := parseNumber_intChars (Int.negSucc m) rest hr
    rw [intChars] at hp
    simp only [List.cons_append] at hp
    rw [hnorm, parseValue, skipWs_not_ws _ (by decide : isWsCh '-' = false)]
    dsimp only
    rw [if_neg (by decide : ¬(('-' : Char).toNat = 34)),
      if_neg (by decide : ('-' : Char) ≠ 'n'), if_neg (by decide : ('-' : Char) ≠ 't'),
      if_neg (by decide : ('-' : Char) ≠ 'f'), if_neg (by decide : ('-' : Char) ≠ '['),
      if_neg (by decide : ('-' : Char) ≠ lbCh), hp]
    simp [stripVal]
  | .str s, fuel + 1, rest, _, _ => by
    have h := parseValue_escString s fuel rest
    simpa [serVal, stripVal] using h
  | .uuid u, fuel + 1, rest, _, _ => by
    have h := parseValue_escString (String.mk (hex32 u.val)) fuel rest
    simpa [serVal, stripVal] using h
  | .arr .nil, fuel + 1, rest, _, _ => by
    have hnorm : serVal (.arr .nil) ++ rest = '[' :: ']' :: rest := by
      simp [serVal, serArr]
    rw [hnorm, parseValue, skipWs_not_ws _ (by decide : isWsCh '[' = false)]
    dsimp only
    simp [skipWs, isWsCh, stripVal, stripArr, lbCh]
  | .arr (.cons v t), fuel + 1, rest, hf, _ => by
    have hpv := sizeV_pos v
    have hpt := sizeA_pos t
    simp only [sizeV, sizeA] at hf
    have hfv : sizeV v ≤ fuel := by omega
    have hft : sizeA t ≤ fuel := by omega
    obtain ⟨hc, hcs, hser, hws, hne⟩ := serVal_head v
    have hnorm : serVal (.arr (.cons v t)) ++ rest
        = '[' :: (serVal v ++ (serArrTail t ++ ']' :: rest)) := by
      simp [serVal, serArr]
    rw [hnorm, parseValue, skipWs_not_ws _ (by decide : isWsCh '[' = false)]
    dsimp only
    rw [if_neg (by decide : ¬(('[' : Char).toNat = 34)),
      if_neg (by decide : ('[' : Char) ≠ 'n'), if_neg (by decide : ('[' : Char) ≠ 't'),
      if_neg (by decide : ('[' : Char) ≠ 'f'), if_pos (rfl : ('[' : Char) = '[')]
    have hsk : skipWs (serVal v ++ (serArrTail t ++ ']' :: rest))
        = hc :: (hcs ++ (serArrTail t ++ ']' :: rest)) := by
      rw [hser, List.cons_append, skipWs_not_ws _ hws]
    rw [hsk]
    dsimp only
    rw [if_neg hne]
    have hback : parseValue fuel (hc :: (hcs ++ (serArrTail t ++ ']' :: rest)))
        = parseValue fuel (serVal v ++ (serArrTail t ++ ']' :: rest)) := by
      rw [hser, List.cons_append]
    rw [hback, rtVal v fuel _ hfv (noDigitHead_serArrTail t rest)]
    dsimp only
    rw [rtArr t fuel rest hft]
    simp [stripVal, stripArr]
  | .obj .nil, fuel + 1, rest, _, _ => by
    have hnorm : serVal (.obj .nil) ++ rest = lbCh :: rbCh :: rest := by
      simp [serVal, serObj]
    rw [hnorm, parseValue, skipWs_not_ws _ (by decide : isWsCh lbCh = false)]
    dsimp only
    rw [if_neg (by decide : ¬(lbCh.toNat = 34)), if_neg (by decide : lbCh ≠ 'n'),
      if_neg (by decide : lbCh ≠ 't'), if_neg (by decide : lbCh ≠ 'f'),
      if_neg (by decide : lbCh ≠ '['), if_pos (rfl : lbCh = lbCh),
      skipWs_not_ws _ (by decide : isWsCh rbCh = false)]
    dsimp only
    rw [if_pos rbCh_toNat]
    rfl
  | .obj (.cons k v t), fuel + 1, rest, hf, _ => by
    have hpv := sizeV_pos v
    have hpt := sizeO_pos t
    simp only [sizeV, sizeO] at hf
    have hfv : sizeV v ≤ fuel := by omega
    have hft : sizeO t ≤ fuel := by omega
    obtain ⟨g, rfl⟩ : ∃ g, fuel = g + 1 := ⟨fuel - 1, by omega⟩
    have hnorm : serVal (.obj (.cons k v t)) ++ rest
        = lbCh :: (qtCh :: (escList k.data
            ++ (qtCh :: (':' :: (' ' :: (serVal v ++ (serObjTail t ++ rbCh :: rest))))))) := by
      simp [serVal, serObj, escString]
    rw [hnorm, parseValue, skipWs_not_ws _ (by decide : isWsCh lbCh = false)]
    dsimp only
    rw [if_neg (by decide : ¬(lbCh.toNat = 34)), if_neg (by decide : lbCh ≠ 'n'),
      if_neg (by decide : lbCh ≠ 't'), if_neg (by decide : lbCh ≠ 'f'),
      if_neg (by decide : lbCh ≠ '['), if_pos (rfl : lbCh = lbCh),
      skipWs_not_ws _ (by decide : isWsCh qtCh = false)]
    dsimp only
    rw [if_neg (by decide : ¬(qtCh.toNat = 125)), if_pos qtCh_toNat]
    have hlen : k.data.length
        < (escList k.data
            ++ (qtCh :: (':' :: (' ' :: (serVal v ++ (serObjTail t ++ rbCh :: rest)))))).length
          + 1 := by
      have := escList_length_le k.data
      simp only [List.length_append, List.length_cons]
      omega
    rw [parseStrBody_escList k.data _ _ hlen]
    dsimp only
    rw [skipWs_not_ws _ (by decide : isWsCh ':' = false)]
    dsimp only
    rw [if_pos (rfl : (':' : Char) = ':'), parseValue_space,
      rtVal v (g + 1) _ hfv (noDigitHead_serObjTail t rest)]
    dsimp only
    rw [rtObj t (g + 1) rest hft]
    simp [stripVal, stripObj, string_mk_data]

theorem rtArr : ∀ (a : JArr) (fuel : Nat) (rest : List Char), sizeA a ≤ fuel →
    parseArrTail fuel (serArrTail a ++ ']' :: rest) = some (stripArr a, rest)
  | a, 0, _, hf => by
    have := sizeA_pos a
    omega
  | .nil, fuel + 1, rest, _ => by
    have hnorm : serArrTail .nil ++ ']' :: rest = ']' :: rest := by
      simp [serArrTail]
    rw [hnorm, parseArrTail, skipWs_not_ws _ (by decide : isWsCh ']' = false)]
    dsimp only
    rw [if_pos (rfl : (']' : Char) = ']')]
    rfl
  | .cons v t, fuel + 1, rest, hf => by
    have hpv := sizeV_pos v
    have hpt := sizeA_pos t
    simp only [sizeA] at hf
    have hfv : sizeV v ≤ fuel := by omega
    have hft : sizeA t ≤ fuel := by omega
    obtain ⟨g, rfl⟩ : ∃ g, fuel = g + 1 := ⟨fuel - 1, by omega⟩
    have hnorm : serArrTail (.cons v t) ++ ']' :: rest
        = ',' :: (' ' :: (serVal v ++ (serArrTail t ++ ']' :: rest))) := by
      simp [serArrTail]
    rw [hnorm, parseArrTail, skipWs_not_ws _ (by decide : isWsCh ',' = false)]
    dsimp only
    rw [if_neg (by decide : (',' : Char) ≠ ']'), if_pos (rfl : (',' : Char) = ','),
      parseValue_space, rtVal v (g + 1) _ hfv (noDigitHead_serArrTail t rest)]
    dsimp only
    rw [rtArr t (g + 1) rest hft]
    simp [stripArr]

theorem rtObj : ∀ (o : JObj) (fuel : Nat) (rest : List Char), sizeO o ≤ fuel →
    parseObjTail fuel (serObjTail o ++ rbCh :: rest) = some (stripObj o, rest)
  | o, 0, _, hf => by
    have := sizeO_pos o
    omega
  | .nil, fuel + 1, rest, _ => by
    have hnorm : serObjTail .nil ++ rbCh :: rest = rbCh :: rest := by
      simp [serObjTail]
    rw [hnorm, parseObjTail, skipWs_not_ws _ (by decide : isWsCh rbCh = false)]
    dsimp only
    rw [if_pos rbCh_toNat]
    rfl
  | .cons k v t, fuel + 1, rest, hf => by
    have hpv := sizeV_pos v
    have hpt := sizeO_pos t
    simp only [sizeO] at hf
    have hfv : sizeV v ≤ fuel := by omega
    have hft : sizeO t ≤ fuel := by omega
    obtain ⟨g, rfl⟩ : ∃ g, fuel = g + 1 := ⟨fuel - 1, by omega⟩
    have hnorm : serObjTail (.cons k v t) ++ rbCh :: rest
        = ',' :: (' ' :: (qtCh :: (escList k.data
            ++ (qtCh :: (':' :: (' ' :: (serVal v ++ (serObjTail t ++ rbCh :: rest)))))))) := by
      simp [serObjTail, escString]
    rw [hnorm, parseObjTail, skipWs_not_ws _ (by decide : isWsCh ',' = false)]
    dsimp only
    rw [if_neg (by decide : ¬((',' : Char).toNat = 125)),
      if_pos (rfl : (',' : Char) = ','), skipWs_space,
      skipWs_not_ws _ (by decide : isWsCh qtCh = false)]
    dsimp only
    rw [if_pos qtCh_toNat]
    have hlen : k.data.length
        < (escList k.data
            ++ (qtCh :: (':' :: (' ' :: (serVal v ++ (serObjTail t ++ rbCh :: rest)))))).length
          + 1 := by
      have := escList_length_le k.data
      simp only [List.length_append, List.length_cons]
      omega
    rw [parseStrBody_escList k.data _ _ hlen]
    dsimp only
    rw [skipWs_not_ws _ (by decide : isWsCh ':' = false)]
    dsimp only
    rw [if_pos (rfl : (':' : Char) = ':'), parseValue_space,
      rtVal v (g + 1) _ hfv (noDigitHead_serObjTail t rest)]
    dsimp only
    rw [rtObj t (g + 1) rest hft]
    simp [stripObj, string_mk_data]

end

mutual

theorem sizeV_le : ∀ v : JValue, sizeV v ≤ (serVal v).length + 1
  | .null => by simp [sizeV, serVal]
  | .bool b => by cases b <;> simp [sizeV, serVal]
  | .num i => by
    simp only [sizeV]
    omega
  | .str s => by
    simp only [sizeV]
    omega
  | .uuid u => by
    simp only [sizeV]
    omega
  | .arr .nil => by simp [sizeV, sizeA, serVal, serArr]
  | .arr (.cons v t) => by
    have h1 := sizeV_le v
    have h2 := sizeA_le t
    simp only [sizeV, sizeA, serVal, serArr, List.length_cons, List.length_append] at *
    omega
  | .obj .nil => by simp [sizeV, sizeO, serVal, serObj]
  | .obj (.cons k v t) => by
    have h1 := sizeV_le v
    have h2 := sizeO_le t
    simp only [sizeV, sizeO, serVal, serObj, List.length_cons, List.length_append] at *
    omega

theorem sizeA_le : ∀ a : JArr, sizeA a ≤ (serArrTail a).length + 1
  | .nil => by simp [sizeA, serArrTail]
  | .cons v t => by
    have h1 := sizeV_le v
    have h2 := sizeA_le t
    simp only [sizeA, serArrTail, List.length_cons, List.length_append] at *
    omega

theorem sizeO_le : ∀ o : JObj, sizeO o ≤ (serObjTail o).length + 1
  | .nil => by simp [sizeO, serObjTail]
  | .cons k v t => by
    have h1 := sizeV_le v
    have h2 := sizeO_le t
    simp only [sizeO, serObjTail, List.length_cons, List.length_append] at *
    omega

end

theorem parseJson_serVal (v : JValue) :
    parseJson (String.mk (serVal v)) = some (stripVal v) := by
  have h1 := sizeV_le v
  have h2 := rtVal v ((serVal v).length + 1) [] (by omega) rfl
  rw [List.append_nil] at h2
  simp [parseJson, h2, skipWs]

theorem decodePayload_encode (v : JValue) :
    decodePayload (String.mk (b64Encode (utf8Encode (serVal v)))) = some (stripVal v) := by
  have hb := b64Decode_b64Encode (utf8Encode (serVal v)) (utf8Encode_lt (serVal v))
  simp [decodePayload, hb, utf8Decode_utf8Encode, parseJson_serVal]

/-! ### Trace lemmas for the dispatch model -/

theorem countEv_append (e : Ev) (l1 l2 : List Ev) :
    countEv e (l1 ++ l2) = countEv e l1 + countEv e l2 := by
  induction l1 with
  | nil => simp [countEv]
  | cons x t ih =>
    simp only [List.cons_append, countEv, List.append_eq, ih]
    omega

theorem countCreate_append (l1 l2 : List Ev) :
    countCreate (l1 ++ l2) = countCreate l1 + countCreate l2 := by
  induction l1 with
  | nil => simp [countCreate]
  | cons x t ih =>
    simp only [List.cons_append, countCreate, List.append_eq, ih]
    omega

theorem countEv_eq_zero (e : Ev) : ∀ l : List Ev, (∀ ev ∈ l, ev ≠ e) →
    countEv e l = 0
  | [], _ => rfl
  | x :: t, h => by
    have hx : ¬(x = e) := h x (by simp)
    simp [countEv, hx, countEv_eq_zero e t (fun ev hev => h ev (by simp [hev]))]

theorem countCreate_eq_zero : ∀ l : List Ev, (∀ ev ∈ l, ev.isCreateCall = false) →
    countCreate l = 0
  | [], _ => rfl
  | x :: t, h => by
    have hx : x.isCreateCall = false := h x (by simp)
    simp [countCreate, hx, countCreate_eq_zero t (fun ev hev => h ev (by simp [hev]))]

theorem retryGo_events (cEv : Ev) (op : Nat → Except Exc PyRes) :
    ∀ (n i : Nat) (le : Option Exc), ∀ ev ∈ (retryGo cEv op n i le).1,
      ev = cEv ∨ ev = Ev.warnLog ∨ ev = Ev.sleep
  | 0, i, le, ev, h => by simp [retryGo] at h
  | 1, i, le, ev, h => by simp [retryGo] at h
  | n + 2, i, le, ev, h => by
    rw [retryGo] at h
    cases hop : op i with
    | ok a =>
      rw [hop] at h
      simp only [List.mem_singleton] at h
      exact Or.inl h
    | error e =>
      rw [hop] at h
      simp only [List.mem_cons] at h
      rcases h with rfl | rfl | rfl | h
      · exact Or.inl rfl
      · exact Or.inr (Or.inl rfl)
      · exact Or.inr (Or.inr rfl)
      · exact retryGo_events cEv op (n + 1) (i + 1) (some e) ev h

theorem retryRun_first_ok (cEv : Ev) (op : Nat → Except Exc PyRes) (v : PyRes)
    (hop : op 0 = .ok v) (n : Nat) (hn : 2 ≤ n) :
    retryRun cEv op n = ([cEv], .ok v) := by
  obtain ⟨m, rfl⟩ : ∃ m, n = m + 2 := ⟨n - 2, by omega⟩
  rw [retryRun, retryGo, hop]

theorem batchAddAll_ok (conn : Conn) (cfg : DCTConfig) :
    ∀ ts : List CloudTaskWrapper, (batchAddAll conn cfg ts).2 = Except.ok () →
      countEv Ev.batchAdd (batchAddAll conn cfg ts).1 = ts.length
      ∧ ∀ ev ∈ (batchAddAll conn cfg ts).1, ev = Ev.batchAdd ∨ ev.isCreateCall = true
  | [], _ => by
    constructor
    · rfl
    · intro ev h
      simp [batchAddAll] at h
  | t :: ts, h => by
    cases hcr : conn.create_result (cloudTaskQueueName cfg t) (createCloudTaskBody t) with
    | error e =>
      rw [batchAddAll, createCloudTask, hcr] at h
      simp at h
    | ok uu =>
      rw [batchAddAll, createCloudTask, hcr] at h ⊢
      dsimp only at h ⊢
      obtain ⟨h1, h2⟩ := batchAddAll_ok conn cfg ts h
      constructor
      · simp only [countEv_append, countEv, List.length_cons, h1, Ev.isCreateCall]
        simp [Ev.isCreateCall]
        omega
      · intro ev hev
        simp only [List.cons_append, List.nil_append, List.mem_cons] at hev
        rcases hev with rfl | rfl | hev
        · exact Or.inr rfl
        · exact Or.inl rfl
        · exact h2 ev hev

/-! ### Claim theorems -/

/-- C1: the spec claims that with an always-failing operation and
`retry_limit = n ≥ 1` the wrapper invokes the operation exactly `n` times,
sleeps `n-1` times, and raises the annotated error.  The code disagrees:
its loop runs `while attempts_left > 1`, so `retry_limit = 2` invokes the
operation once (not twice) with one sleep, `retry_limit = 3` invokes it
twice with two sleeps, and `retry_limit = 1` invokes it zero times and
raises an `AttributeError` (`error` is still `None`) instead of the
annotated error. -/
theorem retry_always_failing_off_by_one :
    countEv Ev.submitCall (retryRun Ev.submitCall (fun _ => Except.error ["boom"]) 2).1 = 1
    ∧ countEv Ev.sleep (retryRun Ev.submitCall (fun _ => Except.error ["boom"]) 2).1 = 1
    ∧ (retryRun Ev.submitCall (fun _ => Except.error ["boom"]) 2).2
        = RetryOutcome.raised [exhaustedMarker, "boom"]
    ∧ countEv Ev.submitCall (retryRun Ev.submitCall (fun _ => Except.error ["boom"]) 3).1 = 2
    ∧ countEv Ev.sleep (retryRun Ev.submitCall (fun _ => Except.error ["boom"]) 3).1 = 2
    ∧ (retryRun Ev.submitCall (fun _ => Except.error ["boom"]) 1).1 = []
    ∧ (retryRun Ev.submitCall (fun _ => Except.error ["boom"]) 1).2
        = RetryOutcome.attrError :=
  ⟨rfl, rfl, rfl, rfl, rfl, rfl, rfl⟩

/-- C2: the spec claims that an operation failing its first `k`
invocations and succeeding on the `(k+1)`th returns its success value for
every `retry_limit > k`.  The code disagrees at `k = 0`, `retry_limit = 1`:
the loop body never runs, the operation is never invoked, and an
`AttributeError` is raised instead of returning the success value (success
needs `retry_limit ≥ k + 2`, as the second conjunct shows for `k = 0`). -/
theorem retry_success_unreachable_at_limit_one :
    retryRun Ev.submitCall (fun _ => Except.ok (some (JValue.num 42))) 1
      = ([], RetryOutcome.attrError)
    ∧ retryRun Ev.submitCall (fun _ => Except.ok (some (JValue.num 42))) 2
      = ([Ev.submitCall], RetryOutcome.ok (some (JValue.num 42))) :=
  ⟨rfl, rfl⟩

/-- C3: decoding the payload field of the wire task resource (base64
decode, UTF-8 decode, JSON parse) yields exactly the mapping
`{"internal_task_name": H, "data": P}` for the wrapper's handler name `H`
and payload `P`, except that `uuid.UUID` values inside `P` come back as
their flat lowercase hex strings. -/
theorem create_cloud_task_payload_roundtrip (w : CloudTaskWrapper) :
    decodePayload (createCloudTaskBody w).appEngineHttpRequest.payload
      = some (.obj (.cons "internal_task_name" (.str w.internal_task_name)
          (.cons "data" (stripVal (dataJValue w.data)) .nil))) := by
  have h := decodePayload_encode
    (.obj (.cons "internal_task_name" (.str w.internal_task_name)
      (.cons "data" (dataJValue w.data) .nil)))
  simpa [createCloudTaskBody, encodedPayload, stripVal, stripObj] using h

/-- C4: with local-execution configuration on and a non-remote wrapper,
`execute()` invokes the bound handler with a synthesized mock request plus
the payload entries as keyword arguments (none when the payload is falsy),
returns exactly the handler's result — a raised exception passing through
unmodified — and never touches the queueing service. -/
theorem execute_local_runs_handler (conn : Conn) (cfg : DCTConfig)
    (freshId : Fin (2 ^ 128)) (w : CloudTaskWrapper) (retry_limit : Nat) (bt : BaseTaskM)
    (hloc : cfg.execute_locally = true) (hrem : w.is_remote = false)
    (hbt : w.base_task = some bt) :
    executeTask conn cfg freshId w retry_limit
      = ([Ev.handlerRun],
         outcomeOfExcept (bt.run (mkMockRequest freshId none none none) (runKwargs w.data)))
    ∧ ∀ ev ∈ (executeTask conn cfg freshId w retry_limit).1, ev.isQueueTouch = false := by
  have hcond : (cfg.execute_locally && !w.is_remote) = true := by
    simp [hloc, hrem]
  have hmain : executeTask conn cfg freshId w retry_limit
      = ([Ev.handlerRun],
         outcomeOfExcept (bt.run (mkMockRequest freshId none none none) (runKwargs w.data))) := by
    rw [executeTask, if_pos hcond, runTask, hbt]
    cases hrun : bt.run (mkMockRequest freshId none none none) (runKwargs w.data) <;>
      simp [outcomeOfExcept, hrun]
  refine ⟨hmain, ?_⟩
  rw [hmain]
  intro ev hev
  simp only [List.mem_singleton] at hev
  subst hev
  rfl

/-- C5: with `retry_limit = 0` both the single-task `execute()` and
`batch_execute` invoke the underlying submission exactly once, with no
sleep and no retry wrapping, and a failure propagates raw (no exhausted
annotation): the result is exactly `outcomeOfExcept` of the first
submission outcome. -/
theorem retry_limit_zero_invokes_once (conn : Conn) (cfg : DCTConfig)
    (freshId : Fin (2 ^ 128)) (w : CloudTaskWrapper) (tasks : List CloudTaskWrapper)
    (hpath : (cfg.execute_locally && !w.is_remote) = false)
    (hblock : (w.is_remote && cfg.block_remote_tasks) = false)
    (hcreate : conn.create_result (cloudTaskQueueName cfg w) (createCloudTaskBody w)
      = Except.ok ())
    (hadds : (batchAddAll conn cfg tasks).2 = Except.ok ())
    (hlen : tasks.length ≤ 999) :
    executeTask conn cfg freshId w 0
      = ([Ev.createCall (cloudTaskQueueName cfg w), Ev.submitCall],
         outcomeOfExcept (conn.request_execute 0))
    ∧ batchExecute conn cfg tasks 0
      = ((batchAddAll conn cfg tasks).1 ++ [Ev.batchExec],
         outcomeOfExcept (conn.batch_execute 0)) := by
  constructor
  · rw [executeTask, if_neg (by simp [hpath]), if_neg (by simp [hblock]),
      createCloudTask, hcreate]
    dsimp only
    rfl
  · rw [batchExecute, if_neg (by omega : ¬(1000 ≤ tasks.length))]
    dsimp only
    rw [hadds]
    dsimp only
    rfl

/-- C10: on the remote-dispatch path with a nonzero `retry_limit`, the wire
request is constructed and `tasks_endpoint.create` called exactly once,
before any retrying; only the created request's `.execute()` is re-invoked
(every other traced event is a submission, a warning log or a sleep), and a
failure raised by the construction itself propagates raw with no retry, no
sleep and no exhausted annotation. -/
theorem execute_remote_creates_once (conn : Conn) (cfg : DCTConfig)
    (freshId : Fin (2 ^ 128)) (w : CloudTaskWrapper) (retry_limit : Nat)
    (hpath : (cfg.execute_locally && !w.is_remote) = false)
    (hblock : (w.is_remote && cfg.block_remote_tasks) = false)
    (hrl : 1 ≤ retry_limit) :
    countCreate (executeTask conn cfg freshId w retry_limit).1 = 1
    ∧ (∀ ev ∈ (executeTask conn cfg freshId w retry_limit).1,
        ev = Ev.createCall (cloudTaskQueueName cfg w) ∨ ev = Ev.submitCall
          ∨ ev = Ev.warnLog ∨ ev = Ev.sleep)
    ∧ ∀ e, conn.create_result (cloudTaskQueueName cfg w) (createCloudTaskBody w)
          = Except.error e →
        executeTask conn cfg freshId w retry_limit
          = ([Ev.createCall (cloudTaskQueueName cfg w)], RetryOutcome.raised e) := by
  have hne : ¬(retry_limit = 0) := by omega
  refine ⟨?_, ?_, ?_⟩
  · rw [executeTask, if_neg (by simp [hpath]), if_neg (by simp [hblock]), createCloudTask]
    cases hcr : conn.create_result (cloudTaskQueueName cfg w) (createCloudTaskBody w) with
    | error e => rfl
    | ok u =>
      dsimp only
      rw [if_neg hne]
      dsimp only
      rw [countCreate_append]
      have hz : countCreate (retryRun Ev.submitCall conn.request_execute retry_limit).1
          = 0 := by
        apply countCreate_eq_zero
        intro ev hev
        rcases retryGo_events Ev.submitCall conn.request_execute retry_limit 0 none ev hev
          with rfl | rfl | rfl <;> rfl
      rw [hz]
      rfl
  · rw [executeTask, if_neg (by simp [hpath]), if_neg (by simp [hblock]), createCloudTask]
    cases hcr : conn.create_result (cloudTaskQueueName cfg w) (createCloudTaskBody w) with
    | error e =>
      intro ev hev
      dsimp only at hev
      simp only [List.mem_singleton] at hev
      exact Or.inl hev
    | ok u =>
      dsimp only
      rw [if_neg hne]
      dsimp only
      intro ev hev
      rw [List.mem_append] at hev
      rcases hev with hev | hev
      · simp only [List.mem_singleton] at hev
        exact Or.inl hev
      · rcases retryGo_events Ev.submitCall conn.request_execute retry_limit 0 none ev hev
          with rfl | rfl | rfl
        · exact Or.inr (Or.inl rfl)
        · exact Or.inr (Or.inr (Or.inl rfl))
        · exact Or.inr (Or.inr (Or.inr rfl))
  · intro e hcr
    rw [executeTask, if_neg (by simp [hpath]), if_neg (by simp [hblock]),
      createCloudTask, hcr]

/-- C6: submitting 1000 or more tasks raises the batch-size error before
any add or network call (empty trace); for at most 999 tasks, when every
wire request constructs successfully and the aggregate call succeeds
(immediately, or under a retry wrap with an effective limit), every task
is added to the single aggregate batch and exactly one aggregate execute
call is issued. -/
theorem batch_size_gate (conn : Conn) (cfg : DCTConfig)
    (tasks : List CloudTaskWrapper) (retry_limit : Nat) :
    (1000 ≤ tasks.length →
      batchExecute conn cfg tasks retry_limit = ([], .raised batchSizeError))
    ∧ (tasks.length ≤ 999 →
      (batchAddAll conn cfg tasks).2 = Except.ok () →
      (retry_limit = 0 ∨ 2 ≤ retry_limit) →
      ∀ v, conn.batch_execute 0 = Except.ok v →
        countEv Ev.batchAdd (batchExecute conn cfg tasks retry_limit).1 = tasks.length
        ∧ countEv Ev.batchExec (batchExecute conn cfg tasks retry_limit).1 = 1
        ∧ (batchExecute conn cfg tasks retry_limit).2 = RetryOutcome.ok v) := by
  constructor
  · intro hlen
    rw [batchExecute, if_pos hlen]
  · intro hlen hadds hrl v hok
    obtain ⟨hcount, hevents⟩ := batchAddAll_ok conn cfg tasks hadds
    have haddsExec : countEv Ev.batchExec (batchAddAll conn cfg tasks).1 = 0 := by
      apply countEv_eq_zero
      intro ev hev
      rcases hevents ev hev with rfl | h
      · simp
      · intro hcon
        subst hcon
        simp [Ev.isCreateCall] at h
    have hmain : batchExecute conn cfg tasks retry_limit
        = ((batchAddAll conn cfg tasks).1 ++ [Ev.batchExec], RetryOutcome.ok v) := by
      rcases hrl with rfl | hrl2
      · rw [batchExecute, if_neg (by omega : ¬(1000 ≤ tasks.length))]
        dsimp only
        rw [hadds]
        dsimp only
        rw [if_pos rfl, hok]
        rfl
      · rw [batchExecute, if_neg (by omega : ¬(1000 ≤ tasks.length))]
        dsimp only
        rw [hadds]
        dsimp only
        rw [if_neg (by omega : ¬(retry_limit = 0)),
          retryRun_first_ok Ev.batchExec conn.batch_execute v hok retry_limit hrl2]
    rw [hmain]
    refine ⟨?_, ?_, rfl⟩
    · rw [countEv_append, hcount]
      simp [countEv]
    · rw [countEv_append, haddsExec]
      simp [countEv]

/-- C7: when the per-item batch callback receives a non-null failure whose
body decodes (UTF-8, then JSON) to a mapping with an embedded
`error.message` string `X`, it raises an exception whose message is
exactly `X`; with a null failure it raises nothing. -/
theorem batch_callback_surfaces_error_message (resp : JValue) (bs : List Nat)
    (chars : List Char) (X : String)
    (hdec : utf8Decode bs = some chars)
    (hparse : parseJson (String.mk chars)
      = some (.obj (.cons "error" (.obj (.cons "message" (.str X) .nil)) .nil))) :
    batchCallbackLogger (some (resp, bs)) = CbOutcome.raisedMsg X
    ∧ batchCallbackLogger none = CbOutcome.nothing := by
  constructor
  · simp [batchCallbackLogger, hdec, hparse, jIndex, jObjGet]
  · rfl

/-- C8: constructing a wrapper fails exactly when the internal task name
does not resolve to a non-empty value (explicit, or derived from the bound
handler object) or the task handler URL does not resolve to a non-empty
value (explicit, or from configuration); on success the wrapper carries
non-empty values for both.  The constructor is pure, so the failure
happens before any submission or retry. -/
theorem wrapper_construction_validation (bt : Option BaseTaskM) (q : String)
    (d : Option JObj) (n u : Option String) (r : Bool) (cfg : DCTConfig) :
    (initOk (mkCloudTaskWrapper bt q d n u r cfg) = true
      ↔ (∃ s, specResolvedName n bt = some s ∧ s ≠ "") ∧ specResolvedUrl u cfg ≠ "")
    ∧ ∀ w, mkCloudTaskWrapper bt q d n u r cfg = Except.ok w →
        w.internal_task_name ≠ "" ∧ w.task_handler_url ≠ "" := by
  have hurl : resolveHandlerUrl u cfg = specResolvedUrl u cfg := rfl
  by_cases hn : pyTruthyStr n = true
  · obtain ⟨s, rfl, hs⟩ : ∃ s, n = some s ∧ s ≠ "" := by
      cases n with
      | none => simp [pyTruthyStr] at hn
      | some s => exact ⟨s, rfl, by simpa [pyTruthyStr] using hn⟩
    by_cases hu : specResolvedUrl u cfg = ""
    · constructor
      · simp [mkCloudTaskWrapper, resolveTaskName.eq_def, hn, specResolvedName, initOk, hs,
          hurl, hu]
      · intro w hw
        rw [mkCloudTaskWrapper, resolveTaskName.eq_def, if_pos hn] at hw
        simp only [Option.getD_some] at hw
        rw [if_neg hs, hurl, if_pos hu] at hw
        cases hw
    · constructor
      · simp [mkCloudTaskWrapper, resolveTaskName.eq_def, hn, specResolvedName, initOk, hs,
          hurl, hu]
      · intro w hw
        rw [mkCloudTaskWrapper, resolveTaskName.eq_def, if_pos hn] at hw
        simp only [Option.getD_some] at hw
        rw [if_neg hs, hurl, if_neg hu] at hw
        cases hw
        exact ⟨hs, hu⟩
  · cases bt with
    | none =>
      constructor
      · simp [mkCloudTaskWrapper, resolveTaskName, hn, specResolvedName, initOk]
      · intro w hw
        rw [mkCloudTaskWrapper, resolveTaskName, if_neg hn] at hw
        cases hw
    | some b =>
      by_cases hb : b.internal_task_name = ""
      · constructor
        · simp [mkCloudTaskWrapper, resolveTaskName, hn, specResolvedName, initOk, hb]
        · intro w hw
          rw [mkCloudTaskWrapper, resolveTaskName, if_neg hn] at hw
          dsimp only at hw
          rw [if_pos hb] at hw
          cases hw
      · by_cases hu : specResolvedUrl u cfg = ""
        · constructor
          · simp [mkCloudTaskWrapper, resolveTaskName, hn, specResolvedName, initOk,
              hb, hurl, hu]
          · intro w hw
            rw [mkCloudTaskWrapper, resolveTaskName, if_neg hn] at hw
            dsimp only at hw
            rw [if_neg hb, hurl, if_pos hu] at hw
            cases hw
        · constructor
          · simp [mkCloudTaskWrapper, resolveTaskName, hn, specResolvedName, initOk,
              hb, hurl, hu]
          · intro w hw
            rw [mkCloudTaskWrapper, resolveTaskName, if_neg hn] at hw
            dsimp only at hw
            rw [if_neg hb, hurl, if_neg hu] at hw
            cases hw
            exact ⟨hb, hu⟩

theorem hex32_ne_nil (x : Nat) : hex32 x ≠ [] := by
  intro h
  have := congrArg List.length h
  simp [hex32] at this

/-- C9, counterexample: the spec claims the task id is always present
(auto-generated when not supplied) also for the execution request
reconstructed from an inbound cloud request; but `from_cloud_request` just
reads the task-name header, so a request without that header yields a
`None` task id. -/
theorem from_cloud_request_missing_task_id :
    (fromCloudRequest { META := [("CONTENT_TYPE", "application/json")] }).task_id
      = none := by
  decide

/-- C9, as amended: the locally synthesized execution request always has a
non-empty task id (a fresh uuid hex when none was supplied) and a non-null
header mapping (empty when none was supplied); the request reconstructed
from an inbound cloud request takes its task id verbatim from the
task-name header (absent when the header is absent) and its header mapping
verbatim from the request. -/
theorem execution_request_fields (freshId : Fin (2 ^ 128)) (req : Option HttpRequest)
    (tid : Option String) (hdrs : Option (List (String × String))) (r : HttpRequest) :
    (∃ s, (mkMockRequest freshId req tid hdrs).task_id = some s ∧ s ≠ "")
    ∧ (∃ hs, (mkMockRequest freshId req tid hdrs).request_headers = some hs)
    ∧ (pyTruthyStr tid = false →
        (mkMockRequest freshId req tid hdrs).task_id
          = some (String.mk (hex32 freshId.val)))
    ∧ (pyTruthyList hdrs = false →
        (mkMockRequest freshId req tid hdrs).request_headers = some [])
    ∧ (fromCloudRequest r).task_id = metaGet r.META appengineTasknameKey
    ∧ (fromCloudRequest r).request_headers = r.META := by
  refine ⟨?_, ?_, ?_, ?_, rfl, rfl⟩
  · by_cases h : pyTruthyStr tid = true
    · cases tid with
      | none => simp [pyTruthyStr] at h
      | some s =>
        refine ⟨s, ?_, ?_⟩
        · simp [mkMockRequest, mockSetup, h]
        · simpa [pyTruthyStr] using h
    · refine ⟨String.mk (hex32 freshId.val), ?_, ?_⟩
      · simp [mkMockRequest, mockSetup, h]
      · intro hc
        apply hex32_ne_nil freshId.val
        have h2 : (String.mk (hex32 freshId.val)).data = ("" : String).data := by
          rw [hc]
        simpa using h2
  · by_cases h : pyTruthyList hdrs = true
    · cases hdrs with
      | none => simp [pyTruthyList] at h
      | some l => exact ⟨l, by simp [mkMockRequest, mockSetup, h]⟩
    · exact ⟨[], by simp [mkMockRequest, mockSetup, h]⟩
  · intro h
    simp [mkMockRequest, mockSetup, h]
  · intro h
    simp [mkMockRequest, mockSetup, h]

/-! ### Witnesses -/

/-- Witness for C4: local execution at a concrete configuration, wrapper
and handler produces the handler's return value and one handler event. -/
theorem execute_local_runs_handler_witness :
    executeTask fixtureConn fixtureCfgLocal fixtureId fixtureWrapper 10
      = ([Ev.handlerRun], RetryOutcome.ok (some (JValue.str "sent"))) := by
  have h := (execute_local_runs_handler fixtureConn fixtureCfgLocal fixtureId
    fixtureWrapper 10 fixtureTask rfl rfl rfl).1
  rw [h]
  rfl

/-- Witness for C5 at a concrete wrapper and one-task batch. -/
theorem retry_limit_zero_invokes_once_witness :
    executeTask fixtureConn fixtureCfgRemote fixtureId fixtureWrapper 0
      = ([Ev.createCall (cloudTaskQueueName fixtureCfgRemote fixtureWrapper),
          Ev.submitCall],
         outcomeOfExcept (fixtureConn.request_execute 0))
    ∧ batchExecute fixtureConn fixtureCfgRemote [fixtureWrapper] 0
      = ((batchAddAll fixtureConn fixtureCfgRemote [fixtureWrapper]).1 ++ [Ev.batchExec],
         outcomeOfExcept (fixtureConn.batch_execute 0)) :=
  retry_limit_zero_invokes_once fixtureConn fixtureCfgRemote fixtureId fixtureWrapper
    [fixtureWrapper] rfl rfl rfl rfl (by decide)

/-- Witness for C6: two tasks produce two adds and one aggregate execute;
a batch of 1000 is rejected with an empty trace. -/
theorem batch_size_gate_witness :
    (countEv Ev.batchAdd (batchExecute fixtureConn fixtureCfgRemote
        [fixtureWrapper, fixtureWrapper] 30).1 = 2
      ∧ countEv Ev.batchExec (batchExecute fixtureConn fixtureCfgRemote
          [fixtureWrapper, fixtureWrapper] 30).1 = 1
      ∧ (batchExecute fixtureConn fixtureCfgRemote [fixtureWrapper, fixtureWrapper] 30).2
        = RetryOutcome.ok (some (JValue.str "done")))
    ∧ batchExecute fixtureConn fixtureCfgRemote (List.replicate 1000 fixtureWrapper) 30
      = ([], .raised batchSizeError) := by
  constructor
  · have h := (batch_size_gate fixtureConn fixtureCfgRemote
      [fixtureWrapper, fixtureWrapper] 30).2 (by decide) rfl (Or.inr (by omega))
      (some (JValue.str "done")) rfl
    exact ⟨h.1, h.2.1, h.2.2⟩
  · exact (batch_size_gate fixtureConn fixtureCfgRemote
      (List.replicate 1000 fixtureWrapper) 30).1
      (le_of_eq (List.length_replicate 1000 fixtureWrapper).symm)

/-- Witness for C7 at a concrete failure body. -/
theorem batch_callback_surfaces_error_message_witness :
    batchCallbackLogger (some (JValue.null,
        utf8Encode (serVal (.obj (.cons "error"
          (.obj (.cons "message" (.str "boom") .nil)) .nil)))))
      = CbOutcome.raisedMsg "boom"
    ∧ batchCallbackLogger none = CbOutcome.nothing :=
  batch_callback_surfaces_error_message JValue.null
    (utf8Encode (serVal (.obj (.cons "error"
      (.obj (.cons "message" (.str "boom") .nil)) .nil))))
    (serVal (.obj (.cons "error" (.obj (.cons "message" (.str "boom") .nil)) .nil)))
    "boom" (by rfl) (by rfl)

/-- Witness for C8: a wrapper with a name derivable from its handler and a
URL from configuration constructs successfully, with non-empty fields. -/
theorem wrapper_construction_validation_witness :
    initOk (mkCloudTaskWrapper (some fixtureTask) "default" none none none false
        fixtureCfgRemote) = true
    ∧ ({ base_task := some fixtureTask, queue := "default", data := none,
         internal_task_name := "send_email", task_handler_url := "/tasks",
         is_remote := false : CloudTaskWrapper }.internal_task_name ≠ ""
        ∧ { base_task := some fixtureTask, queue := "default", data := none,
            internal_task_name := "send_email", task_handler_url := "/tasks",
            is_remote := false : CloudTaskWrapper }.task_handler_url ≠ "") := by
  constructor
  · exact (wrapper_construction_validation (some fixtureTask) "default" none none none
      false fixtureCfgRemote).1.mpr ⟨⟨"send_email", by decide, by decide⟩, by decide⟩
  · exact (wrapper_construction_validation (some fixtureTask) "default" none none none
      false fixtureCfgRemote).2 _ (by rfl)

/-- Witness for C9 (amended): with no supplied task id or headers, the
synthesized request carries the fresh uuid hex and empty headers. -/
theorem execution_request_fields_witness :
    (mkMockRequest fixtureId none none none).task_id
      = some (String.mk (hex32 fixtureId.val))
    ∧ (mkMockRequest fixtureId none none none).request_headers = some [] := by
  have h := execution_request_fields fixtureId none none none { META := [] }
  exact ⟨h.2.2.1 rfl, h.2.2.2.1 rfl⟩

/-- Witness for C10: one create call on the happy path; a failing create
propagates raw with no retry. -/
theorem execute_remote_creates_once_witness :
    countCreate (executeTask fixtureConn fixtureCfgRemote fixtureId fixtureWrapper 10).1
      = 1
    ∧ executeTask fixtureConnFailCreate fixtureCfgRemote fixtureId fixtureWrapper 10
      = ([Ev.createCall (cloudTaskQueueName fixtureCfgRemote fixtureWrapper)],
         RetryOutcome.raised ["create boom"]) := by
  refine ⟨(execute_remote_creates_once fixtureConn fixtureCfgRemote fixtureId
    fixtureWrapper 10 rfl rfl (by omega)).1, ?_⟩
  exact (execute_remote_creates_once fixtureConnFailCreate fixtureCfgRemote fixtureId
    fixtureWrapper 10 rfl rfl (by omega)).2.2 ["create boom"] rfl

end DjangoCloudTasks
